import Mathlib

set_option linter.unusedVariables false

/-!
Shallow embedding of the DevForge PM agent pipeline
(`src/agents/pm/pm_agent.py`).

The pipeline is a deterministic template expander: a configuration
loader, a date/count based identifier allocator, and a chain of
generators producing a feature record that is serialized to JSON and
rendered to a README.  Python strings are modelled by `String`, Python
dicts by insertion-ordered association lists (`List (String × β)` with
`dictSet` reproducing `d[k] = v` semantics), `random.choice` and
`datetime.now()` by explicit parameters, and the filesystem directory
listing by a `List String` of directory names.
-/

namespace PMAgent

/-- Python `needle in hay` on lists of characters: `True` iff `needle`
occurs contiguously inside `hay`. -/
def listContains (needle hay : List Char) : Bool :=
  needle.isPrefixOf hay ||
    (match hay with
     | [] => false
     | _ :: t => listContains needle t)

/-- Python `needle in hay` for strings (substring containment). -/
def strContains (hay needle : String) : Bool :=
  listContains needle.data hay.data

/-- Python `str.lower` (character-wise ASCII model). -/
def lower (s : String) : String := ⟨s.data.map Char.toLower⟩

/-- Python `str.upper` (character-wise ASCII model). -/
def upper (s : String) : String := ⟨s.data.map Char.toUpper⟩

/-- Python dict update `d[k] = v` on an insertion-ordered association
list (Python dicts never hold duplicate keys): overwrite the value of
the key in place if present, otherwise append the new pair at the
end. -/
def dictSet {β : Type} (d : List (String × β)) (k : String) (v : β) :
    List (String × β) :=
  match d with
  | [] => [(k, v)]
  | (k1, v1) :: t => if k1 == k then (k1, v) :: t else (k1, v1) :: dictSet t k v

/-! ### Configuration loader (`_load_config`) -/

/-- Python `line.strip().split('=', 1)` after the strip: split a
character list at the first `'='`. -/
def splitFirstEq : List Char → List Char × List Char
  | [] => ([], [])
  | c :: t =>
      if c = '=' then ([], t)
      else
        let p := splitFirstEq t
        (c :: p.1, p.2)

/-- Python `value.strip('"')`: remove every leading and trailing
double-quote character. -/
def stripQuotes (s : String) : String :=
  ⟨((s.data.dropWhile (fun c => c = '"')).reverse.dropWhile
      (fun c => c = '"')).reverse⟩

/-- One iteration of the `for line in f` loop of `_load_config`:
lines containing `'='` and not starting with `'#'` are stripped, split
at the first `'='`, and stored into the config dict. -/
def processLine (config : List (String × String)) (line : String) :
    List (String × String) :=
  if listContains ['='] line.data && !(line.startsWith "#") then
    let kv := splitFirstEq line.trim.data
    dictSet config ⟨kv.1⟩ (stripQuotes ⟨kv.2⟩)
  else config

/-- The two credential keys overlaid from the environment. -/
def envKeys : List String := ["OPENAI_API_KEY", "ANTHROPIC_API_KEY"]

/-- The `for key in [...]` loop of `_load_config`:
`if os.environ.get(key): config[key] = os.environ.get(key)`.
Python truthiness: an environment variable set to the empty string is
falsy and is not overlaid. -/
def overlayEnv (env : String → Option String)
    (config : List (String × String)) : List (String × String) :=
  envKeys.foldl
    (fun cfg k =>
      match env k with
      | some v => if v ≠ "" then dictSet cfg k v else cfg
      | none => cfg)
    config

/-- `_load_config`: the file (when it exists) is parsed line by line
into a dict, then the two credential environment variables are
overlaid. -/
def load_config (fileExists : Bool) (lines : List String)
    (env : String → Option String) : List (String × String) :=
  overlayEnv env (if fileExists then lines.foldl processLine [] else [])

/-! ### Identifier allocator (`_generate_feature_id`) -/

/-- Decimal digits of a natural number, most significant first. -/
def decimalDigits (n : Nat) : List Nat :=
  if n < 10 then [n] else decimalDigits (n / 10) ++ [n % 10]
termination_by n
decreasing_by
  exact Nat.div_lt_self (by omega) (by omega)

/-- Python format `f"{n:04d}"` for a natural number: the decimal
representation left-padded with zeros to a minimum width of 4. -/
def pad4 (n : Nat) : String :=
  ⟨List.replicate (4 - (decimalDigits n).length) '0' ++
    (decimalDigits n).map Nat.digitChar⟩

/-- `_generate_feature_id`: `f"feat_{timestamp}_{existing + 1:04d}"`
where `existing` is the number of entries matching `feat_*` in the
projects directory. -/
def generate_feature_id (date : String) (existing : Nat) : String :=
  "feat_" ++ date ++ "_" ++ pad4 (existing + 1)

/-- `self.projects_dir.glob("feat_*")` membership test: a name matches
iff it starts with `feat_`. -/
def isFeatName (s : String) : Bool := List.isPrefixOf "feat_".data s.data

/-- `len(list(self.projects_dir.glob("feat_*")))`. -/
def countFeat (dirs : List String) : Nat := (dirs.filter isFeatName).length

/-- The identifier produced by one invocation against a directory
listing. -/
def allocate (date : String) (dirs : List String) : String :=
  generate_feature_id date (countFeat dirs)

/-- Effect of one `generate_feature` run on the projects directory:
allocate the id from the current count, then `mkdir(exist_ok=True)`. -/
def runStep (dirs : List String) (date : String) : String × List String :=
  let fid := allocate date dirs
  (fid, if fid ∈ dirs then dirs else fid :: dirs)

/-- Identifiers produced by successive sequential invocations (one per
date in `dates`) starting from directory listing `dirs`. -/
def runIds (dirs : List String) : List String → List String
  | [] => []
  | d :: ds =>
      let st := runStep dirs d
      st.1 :: runIds st.2 ds

/-- Sequence numbers allocated by successive sequential invocations:
each invocation allocates `countFeat dirs + 1`. -/
def runSeqs (dirs : List String) : List String → List Nat
  | [] => []
  | d :: ds =>
      let st := runStep dirs d
      (countFeat dirs + 1) :: runSeqs st.2 ds

/-! ### Specification builder (`_create_feature_spec`) -/

structure Spec where
  title : String
  description : String
  type : String
  tech_stack : String
  mvp_features : List String
  v2_features : List String
  target_users : String
  success_metrics : List String
deriving DecidableEq, Repr

/-- The fixed category pool from which `random.choice` draws. -/
def feature_types : List String :=
  ["web_application", "mobile_app", "api_service",
   "cli_tool", "data_pipeline", "automation_script"]

/-- `_create_feature_spec`; the `random.choice(feature_types)` draw is
modelled by the explicit `category` parameter.  `tech_stack or default`
is Python truthiness: `None` and the empty string both fall back to the
placeholder. -/
def create_feature_spec (idea : String) (tech_stack : Option String)
    (category : String) : Spec :=
  { title := idea
    description := "A comprehensive solution for " ++ idea
    type := category
    tech_stack :=
      match tech_stack with
      | some t => if t ≠ "" then t else "Modern web stack (TBD by Dev team)"
      | none => "Modern web stack (TBD by Dev team)"
    mvp_features :=
      ["Core " ++ idea ++ " functionality",
       "User authentication",
       "Basic CRUD operations",
       "Simple dashboard"]
    v2_features :=
      ["Advanced analytics",
       "Third-party integrations",
       "Mobile responsiveness",
       "Performance optimizations"]
    target_users := "End users and administrators"
    success_metrics :=
      ["User adoption rate",
       "Feature completion",
       "Performance benchmarks"] }

/-! ### Story generator (`_generate_user_stories`) -/

structure Story where
  id : String
  role : String
  action : String
  benefit : String
  priority : String
  story_points : Nat
deriving DecidableEq, Repr

def generate_user_stories (spec : Spec) : List Story :=
  [{ id := "US-001", role := "As a user",
     action := "I want to access " ++ spec.title,
     benefit := "So that I can use the core functionality",
     priority := "high", story_points := 3 },
   { id := "US-002", role := "As a user",
     action := "I want to create an account",
     benefit := "So that I can save my data",
     priority := "high", story_points := 5 },
   { id := "US-003", role := "As a user",
     action := "I want to manage my content",
     benefit := "So that I can organize my work",
     priority := "high", story_points := 5 },
   { id := "US-004", role := "As an admin",
     action := "I want to view user analytics",
     benefit := "So that I can understand usage patterns",
     priority := "medium", story_points := 8 },
   { id := "US-005", role := "As a user",
     action := "I want to export my data",
     benefit := "So that I can use it elsewhere",
     priority := "low", story_points := 3 },
   { id := "US-006", role := "As a user",
     action := "I want to receive notifications",
     benefit := "So that I stay updated",
     priority := "low", story_points := 5 }]

/-! ### Criteria generator (`_generate_acceptance_criteria`) -/

def authCriteria : List String :=
  ["User can register with email/password",
   "User can login with credentials",
   "User can logout",
   "Password must be at least 8 characters",
   "User receives confirmation email"]

def crudCriteria : List String :=
  ["User can create new items",
   "User can read/view items",
   "User can update items",
   "User can delete items",
   "Changes persist after refresh"]

def dashboardCriteria : List String :=
  ["Dashboard displays user count",
   "Charts show activity over time",
   "Data updates in real-time",
   "Export function works"]

def genericCriteria : List String :=
  ["Feature is accessible from main navigation",
   "Feature works on desktop and mobile",
   "Response time is under 2 seconds",
   "Error handling is implemented"]

/-- The `if`/`elif` dispatch of `_generate_acceptance_criteria`:
tests on `story['action'].lower()` in source order. -/
def story_criteria_for (action : String) : List String :=
  if strContains (lower action) "account" then authCriteria
  else if strContains (lower action) "manage" then crudCriteria
  else if strContains (lower action) "analytics" then dashboardCriteria
  else genericCriteria

structure CriteriaBlock where
  story : String
  criteria : List String
deriving DecidableEq, Repr

/-- `_generate_acceptance_criteria`: builds the dict keyed by story id
in iteration order. -/
def generate_acceptance_criteria (stories : List Story) :
    List (String × CriteriaBlock) :=
  stories.foldl
    (fun acc story =>
      dictSet acc story.id
        { story := story.action, criteria := story_criteria_for story.action })
    []

/-! ### Technical requirements (`_generate_technical_requirements`) -/

structure TechRequirement where
  category : String
  requirement : String
  technologies : List String
  priority : String
deriving DecidableEq, Repr

/-- `_generate_technical_requirements`: the six fixed rows; `spec` and
`tech_stack` are accepted but never read. -/
def generate_technical_requirements (spec : Spec)
    (tech_stack : Option String) : List TechRequirement :=
  [{ category := "Frontend", requirement := "Responsive web interface",
     technologies := ["React", "Vue", "Angular"], priority := "high" },
   { category := "Backend", requirement := "RESTful API",
     technologies := ["Node.js/Express", "Python/FastAPI", "Go"],
     priority := "high" },
   { category := "Database", requirement := "Persistent data storage",
     technologies := ["PostgreSQL", "MongoDB", "SQLite"],
     priority := "high" },
   { category := "Authentication", requirement := "Secure user authentication",
     technologies := ["JWT", "OAuth2", "Session-based"], priority := "high" },
   { category := "Testing", requirement := "Automated test coverage",
     technologies := ["Jest", "PyTest", "Cypress"], priority := "medium" },
   { category := "Deployment", requirement := "Containerized deployment",
     technologies := ["Docker", "Docker Compose"], priority := "medium" }]

/-! ### API specification (`_generate_api_spec`) -/

structure Endpoint where
  path : String
  method : String
  description : String
  auth : Option Bool
  request : Option (List (String × String))
  response : List (String × String)
deriving DecidableEq, Repr

structure ApiSpec where
  version : String
  base_url : String
  endpoints : List Endpoint
deriving DecidableEq, Repr

/-- `_generate_api_spec`: the seven fixed endpoint descriptors.  Keys
absent from an endpoint dict in the source are modelled by `none`. -/
def generate_api_spec (spec : Spec) : ApiSpec :=
  { version := "v1"
    base_url := "/api/v1"
    endpoints :=
      [{ path := "/auth/register", method := "POST",
         description := "Register new user", auth := none,
         request := some [("email", "string"), ("password", "string")],
         response := [("token", "string"), ("user", "object")] },
       { path := "/auth/login", method := "POST",
         description := "User login", auth := none,
         request := some [("email", "string"), ("password", "string")],
         response := [("token", "string"), ("user", "object")] },
       { path := "/items", method := "GET",
         description := "List all items", auth := some true,
         request := none,
         response := [("items", "array")] },
       { path := "/items", method := "POST",
         description := "Create new item", auth := some true,
         request := some [("title", "string"), ("content", "string")],
         response := [("item", "object")] },
       { path := "/items/:id", method := "GET",
         description := "Get single item", auth := some true,
         request := none,
         response := [("item", "object")] },
       { path := "/items/:id", method := "PUT",
         description := "Update item", auth := some true,
         request := some [("title", "string"), ("content", "string")],
         response := [("item", "object")] },
       { path := "/items/:id", method := "DELETE",
         description := "Delete item", auth := some true,
         request := none,
         response := [("success", "boolean")] }] }

/-! ### Database schema (`_generate_database_schema`) -/

structure Column where
  name : String
  type : String
  primary_key : Option Bool
  unique : Option Bool
  foreign_key : Option String
deriving DecidableEq, Repr

structure Table where
  name : String
  columns : List Column
deriving DecidableEq, Repr

structure DbSchema where
  database : String
  tables : List Table
deriving DecidableEq, Repr

/-- `_generate_database_schema`: the fixed two-table schema. -/
def generate_database_schema (spec : Spec) : DbSchema :=
  { database := "PostgreSQL"
    tables :=
      [{ name := "users"
         columns :=
           [{ name := "id", type := "UUID", primary_key := some true,
              unique := none, foreign_key := none },
            { name := "email", type := "VARCHAR(255)", primary_key := none,
              unique := some true, foreign_key := none },
            { name := "password_hash", type := "VARCHAR(255)",
              primary_key := none, unique := none, foreign_key := none },
            { name := "created_at", type := "TIMESTAMP", primary_key := none,
              unique := none, foreign_key := none },
            { name := "updated_at", type := "TIMESTAMP", primary_key := none,
              unique := none, foreign_key := none }] },
       { name := "items"
         columns :=
           [{ name := "id", type := "UUID", primary_key := some true,
              unique := none, foreign_key := none },
            { name := "user_id", type := "UUID", primary_key := none,
              unique := none, foreign_key := some "users.id" },
            { name := "title", type := "VARCHAR(255)", primary_key := none,
              unique := none, foreign_key := none },
            { name := "content", type := "TEXT", primary_key := none,
              unique := none, foreign_key := none },
            { name := "status", type := "VARCHAR(50)", primary_key := none,
              unique := none, foreign_key := none },
            { name := "created_at", type := "TIMESTAMP", primary_key := none,
              unique := none, foreign_key := none },
            { name := "updated_at", type := "TIMESTAMP", primary_key := none,
              unique := none, foreign_key := none }] }] }

/-! ### Aggregate record (`generate_feature`) -/

structure FeatureData where
  id : String
  idea : String
  specification : Spec
  user_stories : List Story
  acceptance_criteria : List (String × CriteriaBlock)
  technical_requirements : List TechRequirement
  api_specification : ApiSpec
  database_schema : DbSchema
  status : String
  created_at : String
  pm_agent : String
deriving DecidableEq, Repr

/-- `generate_feature`: the whole pipeline; the feature id, random
category and timestamp are explicit parameters. -/
def generate_feature (project_idea : String) (tech_stack : Option String)
    (category : String) (created_at : String) (feature_id : String) :
    FeatureData :=
  let spec := create_feature_spec project_idea tech_stack category
  let stories := generate_user_stories spec
  { id := feature_id
    idea := project_idea
    specification := spec
    user_stories := stories
    acceptance_criteria := generate_acceptance_criteria stories
    technical_requirements := generate_technical_requirements spec tech_stack
    api_specification := generate_api_spec spec
    database_schema := generate_database_schema spec
    status := "spec_ready"
    created_at := created_at
    pm_agent := "v1.0" }

/-! ### README renderer (`_generate_readme`) -/

/-- Python `str(n)` for a natural number. -/
def natStr (n : Nat) : String := ⟨(decimalDigits n).map Nat.digitChar⟩

/-- The per-story block of the `README` user-story section, including
the acceptance-criteria checklist when the story id is a key of the
criteria dict. -/
def readmeStory (criteria : List (String × CriteriaBlock)) (story : Story) :
    String :=
  "### " ++ story.id ++ " (" ++ upper story.priority ++ ")\n" ++
  "\n**" ++ story.role ++ ",** " ++ story.action ++ "\n" ++
  "*" ++ story.benefit ++ "*\n\n" ++
  "**Story Points:** " ++ natStr story.story_points ++ "\n\n" ++
  (match criteria.lookup story.id with
   | some block =>
     "**Acceptance Criteria:**\n" ++
     String.join (block.criteria.map (fun c => "- [ ] " ++ c ++ "\n")) ++ "\n"
   | none => "")

/-- `_generate_readme`. -/
def generate_readme (data : FeatureData) : String :=
  let spec := data.specification
  "# " ++ spec.title ++ "\n\n## Description\n" ++ spec.description ++
  "\n\n## Tech Stack\n" ++ spec.tech_stack ++ "\n\n## MVP Features\n" ++
  String.join (spec.mvp_features.map (fun feat => "- " ++ feat ++ "\n")) ++
  "\n## User Stories\n\n" ++
  String.join
    ((data.user_stories.take 4).map (readmeStory data.acceptance_criteria)) ++
  "\n## API Endpoints\n\n" ++
  String.join
    (data.api_specification.endpoints.map
      (fun endpoint =>
        "### " ++ endpoint.method ++ " " ++ endpoint.path ++ "\n" ++
        endpoint.description ++ "\n\n")) ++
  "\n## Status\n" ++
  "- Current Status: " ++ data.status ++ "\n" ++
  "- Created: " ++ data.created_at ++ "\n" ++
  "- Next Step: Awaiting development\n"

/-! ### Lemmas about the substring-containment model -/

theorem listContains_iff (n h : List Char) :
    listContains n h = true ↔ n <:+: h := by
  induction h with
  | nil =>
      simp [listContains, List.isPrefixOf_iff_prefix, List.infix_nil,
        List.prefix_nil]
  | cons c t ih =>
      rw [listContains]
      simp [List.isPrefixOf_iff_prefix, List.infix_cons_iff, ih]

theorem prefix_append_cases {α : Type} {n a b : List α} (h : n <+: a ++ b) :
    n <+: a ∨ ∃ t, n = a ++ t ∧ t <+: b := by
  induction a generalizing n with
  | nil => exact Or.inr ⟨n, rfl, h⟩
  | cons c a' ih =>
      cases n with
      | nil => exact Or.inl List.nil_prefix
      | cons x m =>
          rw [List.cons_append, List.cons_prefix_cons] at h
          obtain ⟨rfl, hm⟩ := h
          rcases ih hm with h1 | ⟨t, rfl, ht⟩
          · exact Or.inl (List.cons_prefix_cons.mpr ⟨rfl, h1⟩)
          · exact Or.inr ⟨t, rfl, ht⟩

theorem infix_append_cases {α : Type} {n a b : List α} (h : n <:+: a ++ b) :
    n <:+: a ∨ n <:+: b ∨
      ∃ s t, s ≠ [] ∧ t ≠ [] ∧ s <:+ a ∧ t <+: b ∧ n = s ++ t := by
  induction a generalizing n with
  | nil => exact Or.inr (Or.inl h)
  | cons c a' ih =>
      rw [List.cons_append, List.infix_cons_iff] at h
      rcases h with hpre | hinf
      · cases n with
        | nil => exact Or.inl List.nil_prefix.isInfix
        | cons x m =>
            rw [List.cons_prefix_cons] at hpre
            obtain ⟨rfl, hm⟩ := hpre
            rcases prefix_append_cases hm with h1 | ⟨t, rfl, ht⟩
            · exact Or.inl (List.cons_prefix_cons.mpr ⟨rfl, h1⟩).isInfix
            · by_cases hT : t = []
              · subst hT
                exact Or.inl (by simp)
              · refine Or.inr (Or.inr ⟨x :: a', t, by simp, hT,
                  List.suffix_refl _, ht, by simp⟩)
      · rcases ih hinf with h1 | h2 | ⟨s, t, hs, ht, hsuf, hpre', rfl⟩
        · exact Or.inl (List.infix_cons_iff.mpr (Or.inr h1))
        · exact Or.inr (Or.inl h2)
        · exact Or.inr (Or.inr ⟨s, t, hs, ht,
            hsuf.trans (List.suffix_cons c a'), hpre', rfl⟩)

theorem no_span_of_getLast {a pat : List Char} {c : Char}
    (hlast : a.getLast? = some c) (hc : c ∉ pat) :
    ∀ s, s ≠ [] → s <:+ a → ¬ s <+: pat := by
  intro s hs hsuf hpre
  obtain ⟨u, rfl⟩ := hsuf
  rw [List.getLast?_append, List.getLast?_eq_getLast s hs] at hlast
  have hmem : s.getLast hs ∈ s := List.getLast_mem hs
  have hcc : s.getLast hs = c := by
    simp [Option.or] at hlast
    exact hlast
  exact hc (hcc ▸ hpre.subset hmem)

/-- If the pattern does not occur in a list `tmpl` whose last character
it does not contain, then it occurs in `tmpl ++ idea` iff it occurs in
`idea`. -/
theorem listContains_template_append {tmpl idea pat : List Char} {c : Char}
    (hnot : listContains pat tmpl = false)
    (hlast : tmpl.getLast? = some c) (hpat : c ∉ pat) :
    listContains pat (tmpl ++ idea) = listContains pat idea := by
  rw [Bool.eq_iff_iff, listContains_iff, listContains_iff]
  constructor
  · intro h
    rcases infix_append_cases h with h1 | h2 | ⟨s, t, hs, ht, hsuf, hpre, rfl⟩
    · rw [← listContains_iff, hnot] at h1
      exact absurd h1 (by simp)
    · exact h2
    · exact absurd (List.prefix_append s t) (no_span_of_getLast hlast hpat s hs hsuf)
  · intro h
    exact h.trans (List.suffix_append tmpl idea).isInfix

/-- The idea is interpolated into story US-001's action after a
template ending in a blank; an all-letter pattern occurs in the lowered
action iff it occurs in the lowered idea. -/
theorem us001_trigger (idea pat : String)
    (hnot : listContains pat.data "i want to access ".data = false)
    (hpat : ' ' ∉ pat.data) :
    strContains (lower ("I want to access " ++ idea)) pat =
      strContains (lower idea) pat := by
  show listContains pat.data (("I want to access " ++ idea).data.map Char.toLower) =
    listContains pat.data (idea.data.map Char.toLower)
  rw [String.data_append, List.map_append]
  have htempl : "I want to access ".data.map Char.toLower =
      "i want to access ".data := by decide
  rw [htempl]
  exact listContains_template_append hnot (by decide) hpat

/-! ### Claim C1: output counts -/

/-- C1 counterexample: at the concrete idea "Task management app" one
invocation produces six technical requirement rows, so the claimed
count of exactly four is false. -/
theorem c1_counterexample :
    (generate_feature "Task management app" none "web_application"
        "2026-01-01T00:00:00" "feat_20260101_0001").technical_requirements.length = 6 ∧
    ¬ (generate_feature "Task management app" none "web_application"
        "2026-01-01T00:00:00" "feat_20260101_0001").technical_requirements.length = 4 := by
  exact ⟨rfl, by decide⟩

/-- C1 (amended): for every non-empty idea string and any optional
tech-stack string, one invocation of the generator produces exactly six
user stories, exactly six technical requirement rows (the claim said
four), exactly seven API endpoints, and a schema with exactly two
tables named users and items; these counts do not depend on the
input. -/
theorem c1_counts (idea : String) (tech : Option String)
    (category created_at feature_id : String) (hidea : idea ≠ "") :
    (generate_feature idea tech category created_at feature_id).user_stories.length = 6 ∧
    (generate_feature idea tech category created_at feature_id).technical_requirements.length = 6 ∧
    (generate_feature idea tech category created_at feature_id).api_specification.endpoints.length = 7 ∧
    (generate_feature idea tech category created_at feature_id).database_schema.tables.map Table.name
      = ["users", "items"] :=
  ⟨rfl, rfl, rfl, rfl⟩

/-- Witness for `c1_counts` at the idea "Task management app". -/
theorem c1_counts_witness :
    ("Task management app" : String) ≠ "" ∧
    ((generate_feature "Task management app" none "web_application"
        "2026-01-01T00:00:00" "feat_20260101_0001").user_stories.length = 6 ∧
     (generate_feature "Task management app" none "web_application"
        "2026-01-01T00:00:00" "feat_20260101_0001").technical_requirements.length = 6 ∧
     (generate_feature "Task management app" none "web_application"
        "2026-01-01T00:00:00" "feat_20260101_0001").api_specification.endpoints.length = 7 ∧
     (generate_feature "Task management app" none "web_application"
        "2026-01-01T00:00:00" "feat_20260101_0001").database_schema.tables.map Table.name
       = ["users", "items"]) :=
  ⟨by decide, c1_counts "Task management app" none "web_application"
    "2026-01-01T00:00:00" "feat_20260101_0001" (by decide)⟩

/-! ### Claim C2: dispatch precedence -/

/-- C2 (confirmed): the criteria generator selects the checklist by
case-insensitive substring matching on the story's action text with
first-match-wins precedence: account → auth checklist, else manage →
CRUD checklist, else analytics → dashboard checklist, else the generic
fallback. -/
theorem c2_dispatch (action : String) :
    (strContains (lower action) "account" = true →
      story_criteria_for action = authCriteria) ∧
    (strContains (lower action) "account" = false →
      strContains (lower action) "manage" = true →
      story_criteria_for action = crudCriteria) ∧
    (strContains (lower action) "account" = false →
      strContains (lower action) "manage" = false →
      strContains (lower action) "analytics" = true →
      story_criteria_for action = dashboardCriteria) ∧
    (strContains (lower action) "account" = false →
      strContains (lower action) "manage" = false →
      strContains (lower action) "analytics" = false →
      story_criteria_for action = genericCriteria) := by
  unfold story_criteria_for
  refine ⟨?_, ?_, ?_, ?_⟩ <;> intros <;> simp_all

/-- Witness for `c2_dispatch`: each of the four branches discharged at
a concrete action. -/
theorem c2_dispatch_witness :
    (strContains (lower "I want to create an account") "account" = true ∧
      story_criteria_for "I want to create an account" = authCriteria) ∧
    (story_criteria_for "I want to manage my content" = crudCriteria) ∧
    (story_criteria_for "I want to view user analytics" = dashboardCriteria) ∧
    (story_criteria_for "I want to export my data" = genericCriteria) :=
  ⟨⟨by decide, (c2_dispatch "I want to create an account").1 (by decide)⟩,
   (c2_dispatch "I want to manage my content").2.1 (by decide) (by decide),
   (c2_dispatch "I want to view user analytics").2.2.1 (by decide) (by decide) (by decide),
   (c2_dispatch "I want to export my data").2.2.2 (by decide) (by decide) (by decide)⟩

/-! ### Claim C3: checklist contents per trigger -/

/-- C3 counterexample: an action containing "manage" does not always
receive the CRUD checklist — with "account" also present the auth
checklist wins. -/
theorem c3_counterexample :
    strContains (lower "I want to manage my account") "manage" = true ∧
    story_criteria_for "I want to manage my account" = authCriteria ∧
    story_criteria_for "I want to manage my account" ≠ crudCriteria := by
  refine ⟨by decide, by decide, by decide⟩

/-- C3 (amended): with the dispatch precedence taken into account, an
action containing "account" yields the five-item authentication
checklist; containing "manage" but not "account" yields the five-item
CRUD checklist; containing "analytics" but neither "account" nor
"manage" yields the four-item dashboard checklist; containing none of
the triggers yields the four-item generic checklist. -/
theorem c3_checklists (action : String) :
    (strContains (lower action) "account" = true →
      story_criteria_for action = authCriteria ∧ authCriteria.length = 5) ∧
    (strContains (lower action) "account" = false →
      strContains (lower action) "manage" = true →
      story_criteria_for action = crudCriteria ∧ crudCriteria.length = 5) ∧
    (strContains (lower action) "account" = false →
      strContains (lower action) "manage" = false →
      strContains (lower action) "analytics" = true →
      story_criteria_for action = dashboardCriteria ∧ dashboardCriteria.length = 4) ∧
    (strContains (lower action) "account" = false →
      strContains (lower action) "manage" = false →
      strContains (lower action) "analytics" = false →
      story_criteria_for action = genericCriteria ∧ genericCriteria.length = 4) := by
  unfold story_criteria_for
  refine ⟨?_, ?_, ?_, ?_⟩ <;> intros <;> refine ⟨by simp_all, by decide⟩

/-- Witness for `c3_checklists`: each branch discharged at a concrete
story action of the generated set. -/
theorem c3_checklists_witness :
    (story_criteria_for "I want to create an account" = authCriteria ∧
      authCriteria.length = 5) ∧
    (story_criteria_for "I want to manage my content" = crudCriteria ∧
      crudCriteria.length = 5) ∧
    (story_criteria_for "I want to view user analytics" = dashboardCriteria ∧
      dashboardCriteria.length = 4) ∧
    (story_criteria_for "I want to receive notifications" = genericCriteria ∧
      genericCriteria.length = 4) :=
  ⟨(c3_checklists "I want to create an account").1 (by decide),
   (c3_checklists "I want to manage my content").2.1 (by decide) (by decide),
   (c3_checklists "I want to view user analytics").2.2.1 (by decide) (by decide) (by decide),
   (c3_checklists "I want to receive notifications").2.2.2 (by decide) (by decide) (by decide)⟩

/-! ### Claim C4: no story matches more than one trigger -/

/-- Number of the three trigger words occurring (case-insensitively) in
an action text. -/
def triggerCount (action : String) : Nat :=
  (if strContains (lower action) "account" = true then 1 else 0) +
  (if strContains (lower action) "manage" = true then 1 else 0) +
  (if strContains (lower action) "analytics" = true then 1 else 0)

/-- C4 counterexample: for the idea "manage accounts", story US-001's
action text contains both "manage" and "account", so the claimed
invariant fails for that idea. -/
theorem c4_counterexample :
    ((generate_user_stories (create_feature_spec "manage accounts" none
        "web_application")).any
      (fun st => strContains (lower st.action) "account" &&
        strContains (lower st.action) "manage")) = true := by
  decide

/-- C4 (amended): for every idea string containing at most one of the
three trigger words, no story among the six produced contains more than
one trigger, so checklist dispatch is precedence-independent for those
ideas; the unrestricted claim fails because the idea is interpolated
into US-001's action. -/
theorem c4_no_overlap (idea : String) (tech : Option String)
    (category : String) (h : triggerCount idea ≤ 1) :
    ∀ story ∈ generate_user_stories (create_feature_spec idea tech category),
      triggerCount story.action ≤ 1 := by
  intro story hst
  simp [generate_user_stories, create_feature_spec] at hst
  have ha := us001_trigger idea "account" (by decide) (by decide)
  have hm := us001_trigger idea "manage" (by decide) (by decide)
  have hy := us001_trigger idea "analytics" (by decide) (by decide)
  rcases hst with h1 | h1 | h1 | h1 | h1 | h1 <;> subst h1
  · simpa [triggerCount, ha, hm, hy] using h
  · decide
  · decide
  · decide
  · decide
  · decide

/-- Witness for `c4_no_overlap` at the idea "Task management app". -/
theorem c4_no_overlap_witness :
    triggerCount "Task management app" ≤ 1 ∧
    ∀ story ∈ generate_user_stories (create_feature_spec "Task management app"
        none "web_application"),
      triggerCount story.action ≤ 1 :=
  ⟨by decide,
   c4_no_overlap "Task management app" none "web_application" (by decide)⟩

/-! ### Claim C6: end-to-end scenario for "Task management app" -/

/-- Everything before the first newline of a document (Python
`text.split(chr(10))[0]`). -/
def firstLine (s : String) : String :=
  ⟨s.data.takeWhile (fun c => c != '\n')⟩

set_option maxHeartbeats 1000000 in
/-- C6 (confirmed): invoking the pipeline with idea "Task management
app" and no tech-stack argument produces a record whose specification
title is exactly "Task management app", whose tech_stack equals the
fixed default placeholder, whose first MVP feature is "Core Task
management app functionality", and whose README's first heading line is
"# Task management app" — for every category draw, timestamp and
feature id. -/
theorem c6_end_to_end (category created_at feature_id : String) :
    (generate_feature "Task management app" none category created_at
        feature_id).specification.title = "Task management app" ∧
    (generate_feature "Task management app" none category created_at
        feature_id).specification.tech_stack =
      "Modern web stack (TBD by Dev team)" ∧
    (generate_feature "Task management app" none category created_at
        feature_id).specification.mvp_features.head? =
      some "Core Task management app functionality" ∧
    firstLine (generate_readme (generate_feature "Task management app" none
        category created_at feature_id)) = "# Task management app" := by
  refine ⟨rfl, rfl, rfl, ?_⟩
  apply String.ext
  show (generate_readme (generate_feature "Task management app" none category
      created_at feature_id)).data.takeWhile (fun c => c != '\n') =
    "# Task management app".data
  dsimp only [generate_readme, generate_feature, create_feature_spec]
  simp only [String.data_append, List.append_assoc]
  rw [List.takeWhile_append_of_pos (by decide),
    List.takeWhile_append_of_pos (by decide),
    List.takeWhile_append, if_neg (by decide)]
  decide

/-! ### Claim C7: the random category influences nothing downstream -/

/-- C7 (confirmed): two runs on the same idea and tech stack that
differ only in the randomly chosen category produce identical user
stories, acceptance criteria, technical requirements, API
specification, database schema and README document. -/
theorem c7_category_noninterference (idea : String) (tech : Option String)
    (cat1 cat2 created_at feature_id : String) :
    (generate_feature idea tech cat1 created_at feature_id).user_stories =
      (generate_feature idea tech cat2 created_at feature_id).user_stories ∧
    (generate_feature idea tech cat1 created_at feature_id).acceptance_criteria =
      (generate_feature idea tech cat2 created_at feature_id).acceptance_criteria ∧
    (generate_feature idea tech cat1 created_at feature_id).technical_requirements =
      (generate_feature idea tech cat2 created_at feature_id).technical_requirements ∧
    (generate_feature idea tech cat1 created_at feature_id).api_specification =
      (generate_feature idea tech cat2 created_at feature_id).api_specification ∧
    (generate_feature idea tech cat1 created_at feature_id).database_schema =
      (generate_feature idea tech cat2 created_at feature_id).database_schema ∧
    generate_readme (generate_feature idea tech cat1 created_at feature_id) =
      generate_readme (generate_feature idea tech cat2 created_at feature_id) :=
  ⟨rfl, rfl, rfl, rfl, rfl, rfl⟩

/-! ### Claim C8: configuration loader -/

theorem lookup_dictSet_self {β : Type} (d : List (String × β)) (k : String)
    (v : β) : (dictSet d k v).lookup k = some v := by
  induction d with
  | nil => simp [dictSet]
  | cons p t ih =>
      obtain ⟨k1, v1⟩ := p
      by_cases h : k1 = k
      · subst h
        simp [dictSet]
      · have hb : (k1 == k) = false := beq_eq_false_iff_ne.mpr h
        have hb' : (k == k1) = false := beq_eq_false_iff_ne.mpr (Ne.symm h)
        simp [dictSet, hb, List.lookup, hb', ih]

theorem lookup_dictSet_ne {β : Type} (d : List (String × β)) (k k' : String)
    (v : β) (h : k' ≠ k) : (dictSet d k v).lookup k' = d.lookup k' := by
  induction d with
  | nil => simp [dictSet, List.lookup, beq_eq_false_iff_ne.mpr h]
  | cons p t ih =>
      obtain ⟨k1, v1⟩ := p
      by_cases h1 : k1 = k
      · subst h1
        have hb : (k' == k1) = false := beq_eq_false_iff_ne.mpr h
        simp [dictSet, List.lookup, hb]
      · have hb : (k1 == k) = false := beq_eq_false_iff_ne.mpr h1
        simp [dictSet, hb, List.lookup, ih]

/-- The environment used in the C8 counterexample: `OPENAI_API_KEY` is
set, but set to the empty string (falsy in Python). -/
def envCE : String → Option String :=
  fun k => if k = "OPENAI_API_KEY" then some "" else none

/-- C8 counterexample: with the config file absent and `OPENAI_API_KEY`
set to the empty string, the loader returns an empty mapping, not a
mapping containing an entry for that set variable as the claim
states. -/
theorem c8_counterexample :
    envCE "OPENAI_API_KEY" = some "" ∧
    load_config false [] envCE = [] ∧
    (load_config false [] envCE).lookup "OPENAI_API_KEY" = none :=
  ⟨rfl, rfl, rfl⟩

/-- C8 (amended): the configuration loader never fails when the file is
absent: it ignores the line list and returns exactly the entries for
the credential environment variables that are set to a non-empty value
(the unamended claim also counted variables set to the empty string,
which Python truthiness drops); and whenever one of the two credential
variables is set to a non-empty value, it overrides any file-provided
value for that key. -/
theorem c8_config (lines : List String) (env : String → Option String) :
    load_config false lines env = load_config false [] env ∧
    load_config false lines env =
      envKeys.filterMap (fun k =>
        match env k with
        | some v => if v ≠ "" then some (k, v) else none
        | none => none) ∧
    (∀ fe k v, k ∈ envKeys → env k = some v → v ≠ "" →
      (load_config fe lines env).lookup k = some v) := by
  refine ⟨rfl, ?_, ?_⟩
  · show overlayEnv env [] = _
    unfold overlayEnv envKeys
    cases h1 : env "OPENAI_API_KEY" with
    | none =>
        cases h2 : env "ANTHROPIC_API_KEY" with
        | none => simp [h1, h2]
        | some v2 =>
            by_cases hv2 : v2 = "" <;> simp [h1, h2, hv2, dictSet]
    | some v1 =>
        cases h2 : env "ANTHROPIC_API_KEY" with
        | none =>
            by_cases hv1 : v1 = "" <;> simp [h1, h2, hv1, dictSet]
        | some v2 =>
            by_cases hv1 : v1 = "" <;> by_cases hv2 : v2 = "" <;>
              simp [h1, h2, hv1, hv2, dictSet]
  · intro fe k v hk hkv hv
    unfold load_config overlayEnv envKeys
    simp only [envKeys, List.mem_cons, List.mem_singleton] at hk
    rcases hk with rfl | rfl | hk
    · cases h2 : env "ANTHROPIC_API_KEY" with
      | none => simp [hkv, hv, h2, lookup_dictSet_self]
      | some v2 =>
          by_cases hv2 : v2 = "" <;>
            simp [hkv, hv, h2, hv2, lookup_dictSet_self, lookup_dictSet_ne,
              (by decide : ("OPENAI_API_KEY" : String) ≠ "ANTHROPIC_API_KEY")]
    · simp [hkv, hv, lookup_dictSet_self]
    · cases hk

/-- Witness for `c8_config`: a file line provides `OPENAI_API_KEY`, the
environment overrides it. -/
theorem c8_config_witness :
    "OPENAI_API_KEY" ∈ envKeys ∧
    (fun k => if k = "OPENAI_API_KEY" then some "sk-env" else none)
        "OPENAI_API_KEY" = some "sk-env" ∧
    ("sk-env" : String) ≠ "" ∧
    (load_config true ["OPENAI_API_KEY=from-file"]
        (fun k => if k = "OPENAI_API_KEY" then some "sk-env" else none)).lookup
      "OPENAI_API_KEY" = some "sk-env" :=
  ⟨by decide, rfl, by decide,
   (c8_config ["OPENAI_API_KEY=from-file"]
       (fun k => if k = "OPENAI_API_KEY" then some "sk-env" else none)).2.2
     true "OPENAI_API_KEY" "sk-env" (by decide) rfl (by decide)⟩

/-! ### Claim C10: trigger words in the idea reach US-001 -/

/-- C10 (confirmed): because the idea is interpolated into US-001's
action "I want to access <idea>", an idea containing a trigger word
(case-insensitively) never yields the generic checklist for US-001, and
the checklist US-001 receives corresponds to a trigger the idea
contains; in particular "Task management app" (containing "manage")
gives US-001 the five-item CRUD checklist. -/
theorem c10_idea_triggers (idea : String) (tech : Option String)
    (category created_at feature_id : String) :
    ((strContains (lower idea) "account" || strContains (lower idea) "manage" ||
        strContains (lower idea) "analytics") = true →
      story_criteria_for ("I want to access " ++ idea) ≠ genericCriteria) ∧
    (story_criteria_for ("I want to access " ++ idea) = authCriteria →
      strContains (lower idea) "account" = true) ∧
    (story_criteria_for ("I want to access " ++ idea) = crudCriteria →
      strContains (lower idea) "manage" = true) ∧
    (story_criteria_for ("I want to access " ++ idea) = dashboardCriteria →
      strContains (lower idea) "analytics" = true) ∧
    (generate_feature idea tech category created_at
        feature_id).acceptance_criteria.lookup "US-001" =
      some { story := "I want to access " ++ idea,
             criteria := story_criteria_for ("I want to access " ++ idea) } ∧
    ((generate_feature "Task management app" none category created_at
        feature_id).acceptance_criteria.lookup "US-001" =
      some { story := "I want to access Task management app",
             criteria := crudCriteria } ∧
      crudCriteria.length = 5) := by
  have ha := us001_trigger idea "account" (by decide) (by decide)
  have hm := us001_trigger idea "manage" (by decide) (by decide)
  have hy := us001_trigger idea "analytics" (by decide) (by decide)
  refine ⟨?_, ?_, ?_, ?_, rfl, rfl, rfl⟩
  · intro h
    unfold story_criteria_for
    rw [ha, hm, hy]
    split_ifs with h1 h2 h3
    · decide
    · decide
    · decide
    · simp [h1, h2, h3] at h
  · intro heq
    unfold story_criteria_for at heq
    rw [ha, hm, hy] at heq
    split_ifs at heq with h1 h2 h3
    · exact h1
    · exact absurd heq (by decide)
    · exact absurd heq (by decide)
    · exact absurd heq (by decide)
  · intro heq
    unfold story_criteria_for at heq
    rw [ha, hm, hy] at heq
    split_ifs at heq with h1 h2 h3
    · exact absurd heq (by decide)
    · exact h2
    · exact absurd heq (by decide)
    · exact absurd heq (by decide)
  · intro heq
    unfold story_criteria_for at heq
    rw [ha, hm, hy] at heq
    split_ifs at heq with h1 h2 h3
    · exact absurd heq (by decide)
    · exact absurd heq (by decide)
    · exact h3
    · exact absurd heq (by decide)

/-- Witness for `c10_idea_triggers` at the idea "Task management
app". -/
theorem c10_idea_triggers_witness :
    story_criteria_for ("I want to access " ++ "Task management app") ≠
      genericCriteria ∧
    strContains (lower "Task management app") "manage" = true :=
  ⟨(c10_idea_triggers "Task management app" none "web_application"
      "2026-01-01T00:00:00" "feat_20260101_0001").1 (by decide),
   (c10_idea_triggers "Task management app" none "web_application"
      "2026-01-01T00:00:00" "feat_20260101_0001").2.2.1 (by decide)⟩

/-! ### Claim C5: identifier allocator -/

/-- Value of a most-significant-first decimal digit list. -/
def valDigits (l : List Nat) : Nat := l.foldl (fun a d => 10 * a + d) 0

theorem valDigits_append_single (l : List Nat) (d : Nat) :
    valDigits (l ++ [d]) = 10 * valDigits l + d := by
  simp [valDigits, List.foldl_append]

theorem valDigits_decimalDigits (n : Nat) :
    valDigits (decimalDigits n) = n := by
  induction n using Nat.strong_induction_on with
  | _ n ih =>
      rw [decimalDigits]
      by_cases h : n < 10
      · simp [h, valDigits]
      · have hlt : n / 10 < n := Nat.div_lt_self (by omega) (by omega)
        simp only [h, if_false, valDigits_append_single, ih (n / 10) hlt]
        omega

theorem decimalDigits_lt (n : Nat) : ∀ d ∈ decimalDigits n, d < 10 := by
  induction n using Nat.strong_induction_on with
  | _ n ih =>
      intro d hd
      rw [decimalDigits] at hd
      by_cases h : n < 10
      · simp [h] at hd
        omega
      · have hlt : n / 10 < n := Nat.div_lt_self (by omega) (by omega)
        simp [h] at hd
        rcases hd with hd | hd
        · exact ih (n / 10) hlt d hd
        · omega

theorem decimalDigits_length (k : Nat) :
    ∀ n, n < 10 ^ (k + 1) → (decimalDigits n).length ≤ k + 1 := by
  induction k with
  | zero =>
      intro n h
      rw [decimalDigits]
      simp [show n < 10 by omega]
  | succ k ih =>
      intro n h
      rw [decimalDigits]
      by_cases h10 : n < 10
      · simp [h10]
      · have hdiv : n / 10 < 10 ^ (k + 1) := by
          rw [Nat.div_lt_iff_lt_mul (by norm_num)]
          calc n < 10 ^ (k + 2) := h
            _ = 10 ^ (k + 1) * 10 := by ring
        have := ih (n / 10) hdiv
        simp [h10, List.length_append]
        omega

theorem pad4_length {n : Nat} (h : n < 10000) : (pad4 n).data.length = 4 := by
  have hle : (decimalDigits n).length ≤ 4 := decimalDigits_length 3 n (by omega)
  simp [pad4, List.length_append, List.length_replicate]
  omega

theorem pad4_isDigit (n : Nat) : ∀ c ∈ (pad4 n).data, c.isDigit = true := by
  intro c hc
  simp [pad4, List.mem_replicate] at hc
  rcases hc with hc | hc
  · rw [hc.2]
    decide
  · obtain ⟨d, hd, rfl⟩ := hc
    have : d < 10 := decimalDigits_lt n d hd
    interval_cases d <;> decide

/-- Inverse of `Nat.digitChar` on decimal digits. -/
def digitVal (c : Char) : Nat := c.toNat - 48

theorem digitVal_digitChar (d : Nat) (h : d < 10) :
    digitVal (Nat.digitChar d) = d := by
  interval_cases d <;> decide

/-- Read a zero-padded decimal string back. -/
def unpad (s : String) : Nat := valDigits (s.data.map digitVal)

theorem valDigits_replicate_zero (k : Nat) (l : List Nat) :
    valDigits (List.replicate k 0 ++ l) = valDigits l := by
  induction k with
  | zero => rfl
  | succ k ih =>
      rw [List.replicate_succ, List.cons_append]
      show valDigits (0 :: (List.replicate k 0 ++ l)) = valDigits l
      simpa [valDigits] using ih

theorem map_self {α : Type} (f : α → α) (l : List α) (h : ∀ a ∈ l, f a = a) :
    l.map f = l := by
  induction l with
  | nil => rfl
  | cons a t ih =>
      simp [h a (by simp), ih (fun x hx => h x (by simp [hx]))]

theorem unpad_pad4 (n : Nat) : unpad (pad4 n) = n := by
  unfold unpad pad4
  show valDigits ((List.replicate _ '0' ++
    (decimalDigits n).map Nat.digitChar).map digitVal) = n
  rw [List.map_append, List.map_replicate, List.map_map]
  have h2 : (decimalDigits n).map (digitVal ∘ Nat.digitChar) = decimalDigits n :=
    map_self _ _ (fun d hd => digitVal_digitChar d (decimalDigits_lt n d hd))
  rw [h2]
  show valDigits (List.replicate _ 0 ++ decimalDigits n) = n
  rw [valDigits_replicate_zero, valDigits_decimalDigits]

theorem pad4_inj {a b : Nat} (h : pad4 a = pad4 b) : a = b := by
  rw [← unpad_pad4 a, ← unpad_pad4 b, h]

theorem feature_id_seq_inj {d1 d2 : String} {a b : Nat}
    (hd : d1.data.length = d2.data.length) (ha : a < 10000) (hb : b < 10000)
    (h : "feat_" ++ d1 ++ "_" ++ pad4 a = "feat_" ++ d2 ++ "_" ++ pad4 b) :
    a = b := by
  have hdata := congrArg String.data h
  simp only [String.data_append] at hdata
  have hsplit := List.append_inj' hdata
    (by rw [pad4_length ha, pad4_length hb])
  exact pad4_inj (String.ext hsplit.2)

theorem isFeatName_id (d : String) (k : Nat) :
    isFeatName ("feat_" ++ d ++ "_" ++ pad4 k) = true := by
  rw [isFeatName, List.isPrefixOf_iff_prefix]
  simp only [String.data_append]
  exact ((List.prefix_append _ _).trans (List.prefix_append _ _)).trans
    (List.prefix_append _ _)

/-- Invariant of the projects directory along a sequential run: the
`feat_*` count is `n` and every entry was produced by the allocator
with an 8-character date and a sequence number at most `n`. -/
def GoodDirs (dirs : List String) (n : Nat) : Prop :=
  countFeat dirs = n ∧
  ∀ x ∈ dirs, ∃ d k, d.data.length = 8 ∧ 1 ≤ k ∧ k ≤ n ∧ k < 10000 ∧
    x = "feat_" ++ d ++ "_" ++ pad4 k

theorem runStep_good {dirs : List String} {n : Nat} {date : String}
    (hg : GoodDirs dirs n) (hd : date.data.length = 8) (hn : n + 1 < 10000) :
    (runStep dirs date).1 = "feat_" ++ date ++ "_" ++ pad4 (n + 1) ∧
    GoodDirs (runStep dirs date).2 (n + 1) := by
  obtain ⟨hcnt, hmem⟩ := hg
  have hid : allocate date dirs = "feat_" ++ date ++ "_" ++ pad4 (n + 1) := by
    simp [allocate, generate_feature_id, hcnt]
  have hfresh : allocate date dirs ∉ dirs := by
    intro hin
    obtain ⟨d, k, hd8, hk1, hkn, hk4, hx⟩ := hmem _ hin
    rw [hid] at hx
    have := feature_id_seq_inj (hd.trans hd8.symm) hn hk4 hx
    omega
  have h2 : (runStep dirs date).2 = allocate date dirs :: dirs := by
    simp [runStep, hfresh]
  refine ⟨by simp [runStep, hid], ?_, ?_⟩
  · rw [h2, countFeat, List.filter_cons, hid, isFeatName_id]
    simp only [if_true]
    show (List.filter isFeatName dirs).length + 1 = n + 1
    rw [← countFeat, hcnt]
  · intro x hx
    rw [h2] at hx
    rcases List.mem_cons.mp hx with rfl | hx
    · exact ⟨date, n + 1, hd, by omega, le_refl _, hn, hid⟩
    · obtain ⟨d, k, hd8, hk1, hkn, hk4, hxeq⟩ := hmem x hx
      exact ⟨d, k, hd8, hk1, by omega, hk4, hxeq⟩

theorem runSeqs_good (dates : List String) :
    ∀ (dirs : List String) (n : Nat), GoodDirs dirs n →
      (∀ d ∈ dates, d.data.length = 8) → n + dates.length ≤ 9999 →
      runSeqs dirs dates = List.range' (n + 1) dates.length := by
  induction dates with
  | nil =>
      intro dirs n hg h8 hlen
      rfl
  | cons d ds ih =>
      intro dirs n hg h8 hlen
      have hstep := runStep_good hg (h8 d (by simp))
        (by simp at hlen; omega)
      rw [runSeqs, hg.1,
        ih (runStep dirs d).2 (n + 1) hstep.2
          (fun x hx => h8 x (by simp [hx])) (by simp at hlen; omega),
        List.length_cons, List.range'_succ]

/-- C5 (confirmed): the identifier allocator returns
`feat_<date>_<zero-padded sequence>` where the sequence is one plus the
count of existing `feat_*` entries regardless of their date (four
digits, all numeric, while the sequence stays below 10000), and across
successive sequential invocations against the same artifact root
(starting empty, with 8-character dates) the allocated sequence numbers
are `1, 2, 3, …` — strictly increasing independently of the calendar
dates. -/
theorem c5_identifier (date : String) (dirs : List String)
    (dates : List String) (h8 : ∀ d ∈ dates, d.data.length = 8)
    (hlen : dates.length ≤ 9999)
    (hcnt : countFeat dirs + 1 ≤ 9999) :
    generate_feature_id date (countFeat dirs) =
      "feat_" ++ date ++ "_" ++ pad4 (countFeat dirs + 1) ∧
    (pad4 (countFeat dirs + 1)).data.length = 4 ∧
    (∀ c ∈ (pad4 (countFeat dirs + 1)).data, c.isDigit = true) ∧
    runSeqs [] dates = List.range' 1 dates.length ∧
    List.Chain' (· < ·) (runSeqs [] dates) := by
  have hrun : runSeqs [] dates = List.range' 1 dates.length :=
    runSeqs_good dates [] 0 ⟨rfl, by simp⟩ h8 (by omega)
  refine ⟨rfl, pad4_length (by omega), pad4_isDigit _, hrun, ?_⟩
  rw [hrun]
  exact List.Pairwise.chain' (List.pairwise_lt_range' 1 dates.length)

/-- Witness for `c5_identifier`: two runs on calendar dates that go
backwards still allocate strictly increasing sequence numbers. -/
theorem c5_identifier_witness :
    (∀ d ∈ ["20260102", "20250101"], d.data.length = 8) ∧
    (generate_feature_id "20260102" (countFeat ["feat_20240101_0001", "notes"]) =
      "feat_" ++ "20260102" ++ "_" ++
        pad4 (countFeat ["feat_20240101_0001", "notes"] + 1) ∧
     (pad4 (countFeat ["feat_20240101_0001", "notes"] + 1)).data.length = 4 ∧
     (∀ c ∈ (pad4 (countFeat ["feat_20240101_0001", "notes"] + 1)).data,
        c.isDigit = true) ∧
     runSeqs [] ["20260102", "20250101"] = List.range' 1 2 ∧
     List.Chain' (· < ·) (runSeqs [] ["20260102", "20250101"])) :=
  ⟨by decide,
   c5_identifier "20260102" ["feat_20240101_0001", "notes"]
     ["20260102", "20250101"] (by decide) (by decide) (by decide)⟩

/-! ### Claim C9: JSON serialization round trip

`_save_feature` writes the record with `json.dump(feature_data, f,
indent=2)`.  `JValue` models the JSON values of that file; `serValue`
models CPython's `json.dump` with `indent=2` and default
`ensure_ascii=True`; the `parseValue` family models `json.loads`
(whitespace-tolerant, escape- and surrogate-pair-decoding). -/

inductive JValue : Type where
  | str : String → JValue
  | num : Nat → JValue
  | bool : Bool → JValue
  | arr : List JValue → JValue
  | obj : List (String × JValue) → JValue

/-- A 4-hex-digit `\uXXXX` escape (lowercase hex, as CPython emits). -/
def uEscape (n : Nat) : List Char :=
  ['\\', 'u', Nat.digitChar (n / 4096 % 16), Nat.digitChar (n / 256 % 16),
   Nat.digitChar (n / 16 % 16), Nat.digitChar (n % 16)]

/-- CPython `py_encode_basestring_ascii` for one character: named
escapes for the seven specials, `\uXXXX` for other characters outside
printable ASCII (as a surrogate pair beyond the BMP), the character
itself otherwise. -/
def escapeChar (c : Char) : List Char :=
  if c = '"' then ['\\', '"']
  else if c = '\\' then ['\\', '\\']
  else if c = '\n' then ['\\', 'n']
  else if c = '\t' then ['\\', 't']
  else if c = '\r' then ['\\', 'r']
  else if c = '\x08' then ['\\', 'b']
  else if c = '\x0c' then ['\\', 'f']
  else if c.toNat < 32 ∨ 126 < c.toNat then
    if c.toNat < 65536 then uEscape c.toNat
    else uEscape (55296 + (c.toNat - 65536) / 1024) ++
      uEscape (56320 + (c.toNat - 65536) % 1024)
  else [c]

def escapeString (s : String) : List Char :=
  '"' :: ((s.data.map escapeChar).flatten ++ ['"'])

/-- Python `str(n)`. -/
def natChars (n : Nat) : List Char := (decimalDigits n).map Nat.digitChar

/-- The newline-plus-indentation separator of `indent=2` output. -/
def nlInd (ind : Nat) : List Char := '\n' :: List.replicate ind ' '

mutual

def serValue (ind : Nat) : JValue → List Char
  | .str s => escapeString s
  | .num n => natChars n
  | .bool b => if b then ['t', 'r', 'u', 'e'] else ['f', 'a', 'l', 's', 'e']
  | .arr [] => ['[', ']']
  | .arr (x :: xs) =>
      '[' :: (nlInd (ind + 2) ++ serValue (ind + 2) x ++
        serItems (ind + 2) xs ++ nlInd ind ++ [']'])
  | .obj [] => ['\x7b', '\x7d']
  | .obj ((k, v) :: kvs) =>
      '\x7b' :: (nlInd (ind + 2) ++ escapeString k ++ ':' :: ' ' ::
        (serValue (ind + 2) v ++ serFields (ind + 2) kvs ++
          nlInd ind ++ ['\x7d']))
termination_by structural v => v

def serItems (ind : Nat) : List JValue → List Char
  | [] => []
  | x :: xs => ',' :: (nlInd ind ++ serValue ind x ++ serItems ind xs)
termination_by structural l => l

def serFields (ind : Nat) : List (String × JValue) → List Char
  | [] => []
  | (k, v) :: kvs => ',' :: (nlInd ind ++ escapeString k ++ ':' :: ' ' ::
      (serValue ind v ++ serFields ind kvs))
termination_by structural l => l

end

/-- The serialized file contents (`json.dump(feature_data, f, indent=2)`
starts at indentation level 0). -/
def serializeJson (v : JValue) : String := ⟨serValue 0 v⟩

/-! The parser. -/

def isWs (c : Char) : Bool := c = ' ' || c = '\n' || c = '\t' || c = '\r'

def skipWs : List Char → List Char
  | [] => []
  | c :: t => if isWs c then skipWs t else c :: t

def parseHexDigit (c : Char) : Option Nat :=
  if '0' ≤ c ∧ c ≤ '9' then some (c.toNat - 48)
  else if 'a' ≤ c ∧ c ≤ 'f' then some (c.toNat - 87)
  else if 'A' ≤ c ∧ c ≤ 'F' then some (c.toNat - 55)
  else none

def parseHex4 (h1 h2 h3 h4 : Char) : Option Nat :=
  match parseHexDigit h1, parseHexDigit h2, parseHexDigit h3, parseHexDigit h4 with
  | some a, some b, some c, some d => some (4096 * a + 256 * b + 16 * c + d)
  | _, _, _, _ => none

def escDecode (e : Char) : Option Char :=
  if e = '"' then some '"'
  else if e = '\\' then some '\\'
  else if e = '/' then some '/'
  else if e = 'n' then some '\n'
  else if e = 't' then some '\t'
  else if e = 'r' then some '\r'
  else if e = 'b' then some '\x08'
  else if e = 'f' then some '\x0c'
  else none

/-- Read four hex digits. -/
def readHex4 : List Char → Option (Nat × List Char)
  | h1 :: h2 :: h3 :: h4 :: t => (parseHex4 h1 h2 h3 h4).map (fun n => (n, t))
  | _ => none

/-- Read the `\uXXXX` of a low surrogate immediately following a high
surrogate escape. -/
def readSurrogateTail : List Char → Option (Nat × List Char)
  | '\\' :: 'u' :: t8 => readHex4 t8
  | _ => none

/-- Decode one escape sequence (the part after the backslash),
recombining surrogate pairs as CPython `py_scanstring` does. -/
def readEscape : List Char → Option (Char × List Char)
  | [] => none
  | e :: t2 =>
    if e = 'u' then
      (readHex4 t2).bind (fun pn =>
        if 55296 ≤ pn.1 ∧ pn.1 < 56320 then
          (readSurrogateTail pn.2).bind (fun qm =>
            if 56320 ≤ qm.1 ∧ qm.1 < 57344 then
              some (Char.ofNat (65536 + (pn.1 - 55296) * 1024 +
                (qm.1 - 56320)), qm.2)
            else none)
        else if 56320 ≤ pn.1 ∧ pn.1 < 57344 then none
        else some (Char.ofNat pn.1, pn.2))
    else (escDecode e).map (fun d => (d, t2))

/-- String-body scanner of `json.loads` (CPython `py_scanstring`):
consumes up to the closing quote, decoding escapes and recombining
surrogate pairs; rejects raw control characters.  Each consumed source
character costs one unit of fuel, and callers pass `length + 1`, which
is always sufficient. -/
def parseStringBody : Nat → List Char → Option (List Char × List Char)
  | 0, _ => none
  | _ + 1, [] => none
  | fuel + 1, c :: t =>
    if c = '"' then some ([], t)
    else if c = '\\' then
      (readEscape t).bind (fun dr =>
        (parseStringBody fuel dr.2).map (fun p => (dr.1 :: p.1, p.2)))
    else if c.toNat < 32 then none
    else (parseStringBody fuel t).map (fun p => (c :: p.1, p.2))

/-- Digit-string reader for (non-negative) JSON integers. -/
def parseNat (l : List Char) : Option (Nat × List Char) :=
  match l.takeWhile Char.isDigit with
  | [] => none
  | ds => some (valDigits (ds.map digitVal), l.dropWhile Char.isDigit)

mutual

def parseValue : Nat → List Char → Option (JValue × List Char)
  | 0, _ => none
  | fuel + 1, l =>
    match l with
    | [] => none
    | c :: t =>
      if c = '"' then
        (parseStringBody (t.length + 1) t).map
          (fun p => (JValue.str ⟨p.1⟩, p.2))
      else if c = 't' then
        (if t.take 3 = ['r', 'u', 'e'] then some (.bool true, t.drop 3)
         else none)
      else if c = 'f' then
        (if t.take 4 = ['a', 'l', 's', 'e'] then some (.bool false, t.drop 4)
         else none)
      else if c = '[' then
        (if (skipWs t).head? = some ']' then some (.arr [], (skipWs t).tail)
         else
           (parseValue fuel (skipWs t)).bind (fun xr =>
             (parseArrTail fuel xr.2).map (fun yr =>
               (.arr (xr.1 :: yr.1), yr.2))))
      else if c = '\x7b' then
        (if (skipWs t).head? = some '\x7d' then some (.obj [], (skipWs t).tail)
         else
           (parseField fuel (skipWs t)).bind (fun kr =>
             (parseObjTail fuel kr.2).map (fun yr =>
               (.obj (kr.1 :: yr.1), yr.2))))
      else if c.isDigit then
        (parseNat (c :: t)).map (fun nr => (.num nr.1, nr.2))
      else none
termination_by structural fuel l => fuel

def parseArrTail : Nat → List Char → Option (List JValue × List Char)
  | 0, _ => none
  | fuel + 1, l =>
    if (skipWs l).head? = some ',' then
      (parseValue fuel (skipWs (skipWs l).tail)).bind (fun xr =>
        (parseArrTail fuel xr.2).map (fun yr => (xr.1 :: yr.1, yr.2)))
    else if (skipWs l).head? = some ']' then some ([], (skipWs l).tail)
    else none
termination_by structural fuel l => fuel

def parseField : Nat → List Char → Option ((String × JValue) × List Char)
  | 0, _ => none
  | fuel + 1, l =>
    if l.head? = some '"' then
      (parseStringBody (l.tail.length + 1) l.tail).bind (fun kr =>
        if (skipWs kr.2).head? = some ':' then
          (parseValue fuel (skipWs (skipWs kr.2).tail)).map (fun vr =>
            ((⟨kr.1⟩, vr.1), vr.2))
        else none)
    else none
termination_by structural fuel l => fuel

def parseObjTail : Nat → List Char → Option (List (String × JValue) × List Char)
  | 0, _ => none
  | fuel + 1, l =>
    if (skipWs l).head? = some ',' then
      (parseField fuel (skipWs (skipWs l).tail)).bind (fun kr =>
        (parseObjTail fuel kr.2).map (fun yr => (kr.1 :: yr.1, yr.2)))
    else if (skipWs l).head? = some '\x7d' then some ([], (skipWs l).tail)
    else none
termination_by structural fuel l => fuel

end

/-! Node-count measure of a JSON value, used as parser fuel. -/

mutual

def jsize : JValue → Nat
  | .str _ => 1
  | .num _ => 1
  | .bool _ => 1
  | .arr xs => 2 + jsizeItems xs
  | .obj kvs => 2 + jsizeFields kvs
termination_by structural v => v

def jsizeItems : List JValue → Nat
  | [] => 0
  | x :: xs => 1 + jsize x + jsizeItems xs
termination_by structural l => l

def jsizeFields : List (String × JValue) → Nat
  | [] => 0
  | (_, v) :: kvs => 1 + jsize v + jsizeFields kvs
termination_by structural l => l

end

/-! The JSON shape of the record, mirroring the Python dict literals
field by field in source order. -/

def pairsJson (l : List (String × String)) : JValue :=
  .obj (l.map (fun p => (p.1, .str p.2)))

def specJson (s : Spec) : JValue :=
  .obj [("title", .str s.title),
        ("description", .str s.description),
        ("type", .str s.type),
        ("tech_stack", .str s.tech_stack),
        ("mvp_features", .arr (s.mvp_features.map .str)),
        ("v2_features", .arr (s.v2_features.map .str)),
        ("target_users", .str s.target_users),
        ("success_metrics", .arr (s.success_metrics.map .str))]

def storyJson (st : Story) : JValue :=
  .obj [("id", .str st.id),
        ("role", .str st.role),
        ("action", .str st.action),
        ("benefit", .str st.benefit),
        ("priority", .str st.priority),
        ("story_points", .num st.story_points)]

def criteriaBlockJson (b : CriteriaBlock) : JValue :=
  .obj [("story", .str b.story),
        ("criteria", .arr (b.criteria.map .str))]

def techRequirementJson (r : TechRequirement) : JValue :=
  .obj [("category", .str r.category),
        ("requirement", .str r.requirement),
        ("technologies", .arr (r.technologies.map .str)),
        ("priority", .str r.priority)]

def endpointJson (e : Endpoint) : JValue :=
  .obj ([("path", .str e.path),
         ("method", .str e.method),
         ("description", .str e.description)] ++
    (match e.auth with
     | some b => [("auth", .bool b)]
     | none => []) ++
    (match e.request with
     | some r => [("request", pairsJson r)]
     | none => []) ++
    [("response", pairsJson e.response)])

def apiSpecJson (a : ApiSpec) : JValue :=
  .obj [("version", .str a.version),
        ("base_url", .str a.base_url),
        ("endpoints", .arr (a.endpoints.map endpointJson))]

def columnJson (c : Column) : JValue :=
  .obj ([("name", .str c.name), ("type", .str c.type)] ++
    (match c.primary_key with
     | some b => [("primary_key", .bool b)]
     | none => []) ++
    (match c.unique with
     | some b => [("unique", .bool b)]
     | none => []) ++
    (match c.foreign_key with
     | some fk => [("foreign_key", .str fk)]
     | none => []))

def tableJson (t : Table) : JValue :=
  .obj [("name", .str t.name),
        ("columns", .arr (t.columns.map columnJson))]

def dbSchemaJson (s : DbSchema) : JValue :=
  .obj [("database", .str s.database),
        ("tables", .arr (s.tables.map tableJson))]

/-- The JSON value `json.dump` receives for a feature record
(`feature_data` dict in `generate_feature`, in literal order). -/
def toJson (fd : FeatureData) : JValue :=
  .obj [("id", .str fd.id),
        ("idea", .str fd.idea),
        ("specification", specJson fd.specification),
        ("user_stories", .arr (fd.user_stories.map storyJson)),
        ("acceptance_criteria",
          .obj (fd.acceptance_criteria.map
            (fun p => (p.1, criteriaBlockJson p.2)))),
        ("technical_requirements",
          .arr (fd.technical_requirements.map techRequirementJson)),
        ("api_specification", apiSpecJson fd.api_specification),
        ("database_schema", dbSchemaJson fd.database_schema),
        ("status", .str fd.status),
        ("created_at", .str fd.created_at),
        ("pm_agent", .str fd.pm_agent)]

/-! Readers reconstructing the record from the parsed JSON value. -/

def jStr : JValue → Option String
  | .str s => some s
  | _ => none

def jNum : JValue → Option Nat
  | .num n => some n
  | _ => none

def jBool : JValue → Option Bool
  | .bool b => some b
  | _ => none

def jArr : JValue → Option (List JValue)
  | .arr xs => some xs
  | _ => none

def jObj : JValue → Option (List (String × JValue))
  | .obj kvs => some kvs
  | _ => none

def getF (kvs : List (String × JValue)) (k : String) : Option JValue :=
  kvs.lookup k

def fromStrList (v : JValue) : Option (List String) :=
  jArr v >>= fun xs => xs.mapM jStr

def fromPairs (v : JValue) : Option (List (String × String)) :=
  jObj v >>= fun kvs => kvs.mapM (fun p => (jStr p.2).map (fun s => (p.1, s)))

def fromSpec (v : JValue) : Option Spec := do
  let kvs ← jObj v
  let title ← getF kvs "title" >>= jStr
  let description ← getF kvs "description" >>= jStr
  let ty ← getF kvs "type" >>= jStr
  let tech_stack ← getF kvs "tech_stack" >>= jStr
  let mvp_features ← getF kvs "mvp_features" >>= fromStrList
  let v2_features ← getF kvs "v2_features" >>= fromStrList
  let target_users ← getF kvs "target_users" >>= jStr
  let success_metrics ← getF kvs "success_metrics" >>= fromStrList
  pure { title, description, type := ty, tech_stack, mvp_features,
         v2_features, target_users, success_metrics }

def fromStory (v : JValue) : Option Story := do
  let kvs ← jObj v
  let id ← getF kvs "id" >>= jStr
  let role ← getF kvs "role" >>= jStr
  let action ← getF kvs "action" >>= jStr
  let benefit ← getF kvs "benefit" >>= jStr
  let priority ← getF kvs "priority" >>= jStr
  let story_points ← getF kvs "story_points" >>= jNum
  pure { id, role, action, benefit, priority, story_points }

def fromCriteriaBlock (v : JValue) : Option CriteriaBlock := do
  let kvs ← jObj v
  let story ← getF kvs "story" >>= jStr
  let criteria ← getF kvs "criteria" >>= fromStrList
  pure { story, criteria }

def fromTechRequirement (v : JValue) : Option TechRequirement := do
  let kvs ← jObj v
  let category ← getF kvs "category" >>= jStr
  let requirement ← getF kvs "requirement" >>= jStr
  let technologies ← getF kvs "technologies" >>= fromStrList
  let priority ← getF kvs "priority" >>= jStr
  pure { category, requirement, technologies, priority }

def fromEndpoint (v : JValue) : Option Endpoint := do
  let kvs ← jObj v
  let path ← getF kvs "path" >>= jStr
  let method ← getF kvs "method" >>= jStr
  let description ← getF kvs "description" >>= jStr
  let auth ←
    match kvs.lookup "auth" with
    | none => some none
    | some jv => (jBool jv).map some
  let request ←
    match kvs.lookup "request" with
    | none => some none
    | some jv => (fromPairs jv).map some
  let response ← getF kvs "response" >>= fromPairs
  pure { path, method, description, auth, request, response }

def fromApiSpec (v : JValue) : Option ApiSpec := do
  let kvs ← jObj v
  let version ← getF kvs "version" >>= jStr
  let base_url ← getF kvs "base_url" >>= jStr
  let endpoints ← getF kvs "endpoints" >>= jArr >>=
    fun xs => xs.mapM fromEndpoint
  pure { version, base_url, endpoints }

def fromColumn (v : JValue) : Option Column := do
  let kvs ← jObj v
  let name ← getF kvs "name" >>= jStr
  let ty ← getF kvs "type" >>= jStr
  let primary_key ←
    match kvs.lookup "primary_key" with
    | none => some none
    | some jv => (jBool jv).map some
  let unique ←
    match kvs.lookup "unique" with
    | none => some none
    | some jv => (jBool jv).map some
  let foreign_key ←
    match kvs.lookup "foreign_key" with
    | none => some none
    | some jv => (jStr jv).map some
  pure { name, type := ty, primary_key, unique, foreign_key }

def fromTable (v : JValue) : Option Table := do
  let kvs ← jObj v
  let name ← getF kvs "name" >>= jStr
  let columns ← getF kvs "columns" >>= jArr >>= fun xs => xs.mapM fromColumn
  pure { name, columns }

def fromDbSchema (v : JValue) : Option DbSchema := do
  let kvs ← jObj v
  let database ← getF kvs "database" >>= jStr
  let tables ← getF kvs "tables" >>= jArr >>= fun xs => xs.mapM fromTable
  pure { database, tables }

def fromJson (v : JValue) : Option FeatureData := do
  let kvs ← jObj v
  let id ← getF kvs "id" >>= jStr
  let idea ← getF kvs "idea" >>= jStr
  let specification ← getF kvs "specification" >>= fromSpec
  let user_stories ← getF kvs "user_stories" >>= jArr >>=
    fun xs => xs.mapM fromStory
  let acceptance_criteria ← getF kvs "acceptance_criteria" >>= jObj >>=
    fun kvs2 => kvs2.mapM (fun p => (fromCriteriaBlock p.2).map
      (fun b => (p.1, b)))
  let technical_requirements ← getF kvs "technical_requirements" >>= jArr >>=
    fun xs => xs.mapM fromTechRequirement
  let api_specification ← getF kvs "api_specification" >>= fromApiSpec
  let database_schema ← getF kvs "database_schema" >>= fromDbSchema
  let status ← getF kvs "status" >>= jStr
  let created_at ← getF kvs "created_at" >>= jStr
  let pm_agent ← getF kvs "pm_agent" >>= jStr
  pure { id, idea, specification, user_stories, acceptance_criteria,
         technical_requirements, api_specification, database_schema,
         status, created_at, pm_agent }

/-! Key uniqueness of every object in the emitted JSON. -/

def nodupKeys : List String → Bool
  | [] => true
  | k :: t => !t.contains k && nodupKeys t

mutual

def keysUnique : JValue → Bool
  | .str _ => true
  | .num _ => true
  | .bool _ => true
  | .arr xs => keysUniqueItems xs
  | .obj kvs => nodupKeys (kvs.map Prod.fst) && keysUniqueFields kvs
termination_by structural v => v

def keysUniqueItems : List JValue → Bool
  | [] => true
  | x :: xs => keysUnique x && keysUniqueItems xs
termination_by structural l => l

def keysUniqueFields : List (String × JValue) → Bool
  | [] => true
  | (_, v) :: kvs => keysUnique v && keysUniqueFields kvs
termination_by structural l => l

end

/-! Round-trip infrastructure: whitespace and head-character facts. -/

/-- The first character (if any) is not a digit — the context in which
a serialized number can be parsed back unambiguously. -/
def headOk : List Char → Bool
  | [] => true
  | c :: _ => !c.isDigit

/-- Characters that can start a serialized JSON value. -/
def startOk (c : Char) : Bool :=
  c = '"' || c.isDigit || c = 't' || c = 'f' || c = '[' || c = '\x7b'

theorem startOk_props {c : Char} (h : startOk c = true) :
    isWs c = false ∧ c ≠ ']' ∧ c ≠ '\x7d' ∧ c ≠ ',' ∧ c ≠ ':' := by
  simp only [startOk, Bool.or_eq_true, decide_eq_true_eq] at h
  rcases h with ((((rfl | h) | rfl) | rfl) | rfl) | rfl
  · exact ⟨by decide, by decide, by decide, by decide, by decide⟩
  · refine ⟨?_, ?_, ?_, ?_, ?_⟩
    · cases hw : isWs c
      · rfl
      · exfalso
        simp only [isWs, Bool.or_eq_true, decide_eq_true_eq] at hw
        rcases hw with ((rfl | rfl) | rfl) | rfl <;> exact absurd h (by decide)
    · intro hh; subst hh; exact absurd h (by decide)
    · intro hh; subst hh; exact absurd h (by decide)
    · intro hh; subst hh; exact absurd h (by decide)
    · intro hh; subst hh; exact absurd h (by decide)
  · exact ⟨by decide, by decide, by decide, by decide, by decide⟩
  · exact ⟨by decide, by decide, by decide, by decide, by decide⟩
  · exact ⟨by decide, by decide, by decide, by decide, by decide⟩
  · exact ⟨by decide, by decide, by decide, by decide, by decide⟩

theorem skipWs_replicate_space (k : Nat) (l : List Char) :
    skipWs (List.replicate k ' ' ++ l) = skipWs l := by
  induction k with
  | zero => simp
  | succ k ih => simpa [List.replicate_succ, skipWs, isWs] using ih

theorem skipWs_nlInd (ind : Nat) (l : List Char) :
    skipWs (nlInd ind ++ l) = skipWs l := by
  show skipWs ('\n' :: (List.replicate ind ' ' ++ l)) = skipWs l
  rw [skipWs]
  simp [isWs, skipWs_replicate_space]

theorem skipWs_cons_of_startOk {c : Char} (h : startOk c = true)
    (l : List Char) : skipWs (c :: l) = c :: l := by
  rw [skipWs, (startOk_props h).1]
  simp

theorem decimalDigits_ne_nil (n : Nat) : decimalDigits n ≠ [] := by
  rw [decimalDigits]
  split <;> simp

theorem digitChar_isDigit {d : Nat} (h : d < 10) :
    (Nat.digitChar d).isDigit = true := by
  interval_cases d <;> decide

theorem natChars_head (n : Nat) :
    ∃ c r, natChars n = c :: r ∧ c.isDigit = true := by
  unfold natChars
  cases hd : decimalDigits n with
  | nil => exact absurd hd (decimalDigits_ne_nil n)
  | cons d ds =>
      exact ⟨Nat.digitChar d, ds.map Nat.digitChar, by simp,
        digitChar_isDigit (decimalDigits_lt n d (by rw [hd]; simp))⟩

theorem serValue_head (ind : Nat) (v : JValue) :
    ∃ c r, serValue ind v = c :: r ∧ startOk c = true := by
  cases v with
  | str s =>
      exact ⟨'"', (s.data.map escapeChar).flatten ++ ['"'],
        by rw [serValue]; rfl, by decide⟩
  | num n =>
      obtain ⟨c, r, h1, h2⟩ := natChars_head n
      exact ⟨c, r, by rw [serValue]; exact h1, by simp [startOk, h2]⟩
  | bool b =>
      cases b
      · exact ⟨'f', ['a', 'l', 's', 'e'], by rw [serValue]; rfl, by decide⟩
      · exact ⟨'t', ['r', 'u', 'e'], by rw [serValue]; rfl, by decide⟩
  | arr xs =>
      cases xs with
      | nil => exact ⟨'[', [']'], by rw [serValue], by decide⟩
      | cons x xs =>
          exact ⟨'[', _, by rw [serValue], by decide⟩
  | obj kvs =>
      cases kvs with
      | nil => exact ⟨'\x7b', ['\x7d'], by rw [serValue], by decide⟩
      | cons kv kvs =>
          obtain ⟨k, v⟩ := kv
          exact ⟨'\x7b', _, by rw [serValue], by decide⟩

theorem skipWs_serValue (ind : Nat) (v : JValue) (rest : List Char) :
    skipWs (serValue ind v ++ rest) = serValue ind v ++ rest := by
  obtain ⟨c, r, h1, h2⟩ := serValue_head ind v
  rw [h1, List.cons_append, skipWs_cons_of_startOk h2]

/-- Valid scalar values of `Char` never lie in the surrogate range. -/
theorem char_toNat_valid (c : Char) :
    c.toNat < 55296 ∨ (57344 ≤ c.toNat ∧ c.toNat < 1114112) := by
  have h := c.valid
  simp only [UInt32.isValidChar, Nat.isValidChar] at h
  rcases h with h | h
  · exact Or.inl h
  · exact Or.inr h

theorem parseHexDigit_digitChar {m : Nat} (h : m < 16) :
    parseHexDigit (Nat.digitChar m) = some m := by
  interval_cases m <;> decide

theorem parseHex4_digits {n : Nat} (h : n < 65536) :
    parseHex4 (Nat.digitChar (n / 4096 % 16)) (Nat.digitChar (n / 256 % 16))
      (Nat.digitChar (n / 16 % 16)) (Nat.digitChar (n % 16)) = some n := by
  rw [parseHex4,
    parseHexDigit_digitChar (Nat.mod_lt _ (by omega)),
    parseHexDigit_digitChar (Nat.mod_lt _ (by omega)),
    parseHexDigit_digitChar (Nat.mod_lt _ (by omega)),
    parseHexDigit_digitChar (Nat.mod_lt _ (by omega))]
  show some _ = some n
  congr 1
  omega

/-! The string scanner undoes the escaper, character by character. -/

theorem readHex4_digits {n : Nat} (h : n < 65536) (t : List Char) :
    readHex4 (Nat.digitChar (n / 4096 % 16) :: Nat.digitChar (n / 256 % 16) ::
      Nat.digitChar (n / 16 % 16) :: Nat.digitChar (n % 16) :: t) =
      some (n, t) := by
  rw [readHex4, parseHex4_digits h]
  rfl

theorem re_single (n : Nat) (rest : List Char) (hn : n < 65536)
    (hs1 : ¬ (55296 ≤ n ∧ n < 56320)) (hs2 : ¬ (56320 ≤ n ∧ n < 57344)) :
    readEscape ('u' :: Nat.digitChar (n / 4096 % 16) ::
      Nat.digitChar (n / 256 % 16) :: Nat.digitChar (n / 16 % 16) ::
      Nat.digitChar (n % 16) :: rest) = some (Char.ofNat n, rest) := by
  rw [readEscape, if_pos rfl, readHex4_digits hn]
  simp only [Option.some_bind]
  rw [if_neg hs1, if_neg hs2]

theorem re_pair (n m : Nat) (rest : List Char)
    (hn : 55296 ≤ n ∧ n < 56320) (hm : 56320 ≤ m ∧ m < 57344) :
    readEscape ('u' :: Nat.digitChar (n / 4096 % 16) ::
      Nat.digitChar (n / 256 % 16) :: Nat.digitChar (n / 16 % 16) ::
      Nat.digitChar (n % 16) ::
      '\\' :: 'u' :: Nat.digitChar (m / 4096 % 16) ::
      Nat.digitChar (m / 256 % 16) :: Nat.digitChar (m / 16 % 16) ::
      Nat.digitChar (m % 16) :: rest) =
      some (Char.ofNat (65536 + (n - 55296) * 1024 + (m - 56320)), rest) := by
  rw [readEscape, if_pos rfl, readHex4_digits (by omega : n < 65536)]
  simp only [Option.some_bind]
  rw [if_pos hn, readSurrogateTail, readHex4_digits (by omega : m < 65536)]
  simp only [Option.some_bind]
  rw [if_pos hm]

/-- One escaped character scans back to itself. -/
theorem psb_char (c : Char) (fuel : Nat) (rest : List Char) :
    parseStringBody (fuel + 1) (escapeChar c ++ rest) =
      (parseStringBody fuel rest).map (fun p => (c :: p.1, p.2)) := by
  rw [escapeChar]
  split_ifs with h1 h2 h3 h4 h5 h6 h7 h8 h9
  · subst h1; rfl
  · subst h2; rfl
  · subst h3; rfl
  · subst h4; rfl
  · subst h5; rfl
  · subst h6; rfl
  · subst h7; rfl
  · -- BMP escape
    have hval := char_toNat_valid c
    have hs1 : ¬ (55296 ≤ c.toNat ∧ c.toNat < 56320) := by omega
    have hs2 : ¬ (56320 ≤ c.toNat ∧ c.toNat < 57344) := by omega
    show parseStringBody (fuel + 1) ('\\' :: 'u' :: _ :: _ :: _ :: _ :: rest) = _
    rw [parseStringBody, if_neg (by decide : ¬ ('\\' : Char) = '"'), if_pos rfl,
      re_single c.toNat rest h9 hs1 hs2, Char.ofNat_toNat]
    simp only [Option.some_bind]
  · -- astral escape: surrogate pair
    have hval := char_toNat_valid c
    have hlt : c.toNat < 1114112 := by rcases hval with h | h <;> omega
    show parseStringBody (fuel + 1)
      ('\\' :: 'u' :: _ :: _ :: _ :: _ :: ('\\' :: 'u' :: _ :: _ :: _ :: _ :: rest)) = _
    rw [parseStringBody, if_neg (by decide : ¬ ('\\' : Char) = '"'), if_pos rfl,
      re_pair (55296 + (c.toNat - 65536) / 1024) (56320 + (c.toNat - 65536) % 1024)
        rest (by omega) (by omega),
      (by omega : 65536 + (55296 + (c.toNat - 65536) / 1024 - 55296) * 1024 +
        (56320 + (c.toNat - 65536) % 1024 - 56320) = c.toNat),
      Char.ofNat_toNat]
    simp only [Option.some_bind]
  · -- plain printable ASCII
    show parseStringBody (fuel + 1) (c :: rest) = _
    rw [parseStringBody, if_neg h1, if_neg h2,
      if_neg (by omega : ¬ c.toNat < 32)]

theorem escapeChar_length_pos (c : Char) : 1 ≤ (escapeChar c).length := by
  rw [escapeChar]
  split_ifs <;> simp [uEscape]

theorem flatten_escape_length (s : List Char) :
    s.length ≤ ((s.map escapeChar).flatten).length := by
  induction s with
  | nil => simp
  | cons c cs ih =>
      rw [List.map_cons, List.flatten_cons, List.length_append, List.length_cons]
      have := escapeChar_length_pos c
      omega

/-- The scanner recovers the escaped string. -/
theorem psb_escString (s : List Char) (rest : List Char) :
    ∀ fuel, s.length + 1 ≤ fuel →
      parseStringBody fuel ((s.map escapeChar).flatten ++ ('"' :: rest)) =
        some (s, rest) := by
  induction s with
  | nil =>
      intro fuel hf
      obtain ⟨f, rfl⟩ : ∃ f, fuel = f + 1 := ⟨fuel - 1, by omega⟩
      rfl
  | cons c cs ih =>
      intro fuel hf
      obtain ⟨f, rfl⟩ : ∃ f, fuel = f + 1 := ⟨fuel - 1, by omega⟩
      rw [List.map_cons, List.flatten_cons, List.append_assoc, psb_char,
        ih f (by simp at hf ⊢; omega)]
      rfl

/-- A serialized string parses back. -/
theorem parseValue_str (fuel : Nat) (s : String) (rest : List Char) :
    parseValue (fuel + 1) (escapeString s ++ rest) = some (.str s, rest) := by
  show parseValue (fuel + 1)
    ('"' :: (((s.data.map escapeChar).flatten ++ ['"']) ++ rest)) = _
  rw [parseValue, if_pos rfl, List.append_assoc, List.singleton_append,
    psb_escString s.data rest _ (by
      have := flatten_escape_length s.data
      rw [List.length_append, List.length_cons]
      omega)]
  rfl

theorem skipWs_cons_false {c : Char} (h : isWs c = false) (l : List Char) :
    skipWs (c :: l) = c :: l := by
  rw [skipWs, h]
  simp

theorem skipWs_space (l : List Char) : skipWs (' ' :: l) = skipWs l := by
  rw [skipWs]
  simp [isWs]

theorem skipWs_escapeString (k : String) (l : List Char) :
    skipWs (escapeString k ++ l) = escapeString k ++ l := by
  show skipWs ('"' :: _) = _
  exact skipWs_cons_false (by decide) _

theorem headOf_escapeString (k : String) (l : List Char) :
    (escapeString k ++ l).head? = some '"' := rfl

theorem dropWhile_append_of_pos {α : Type} {p : α → Bool} {l1 l2 : List α}
    (h : ∀ x ∈ l1, p x = true) :
    (l1 ++ l2).dropWhile p = l2.dropWhile p := by
  induction l1 with
  | nil => rfl
  | cons a t ih =>
      rw [List.cons_append, List.dropWhile_cons, h a (by simp)]
      exact ih (fun x hx => h x (by simp [hx]))

theorem natChars_digits (n : Nat) : ∀ c ∈ natChars n, c.isDigit = true := by
  intro c hc
  unfold natChars at hc
  simp only [List.mem_map] at hc
  obtain ⟨d, hd, rfl⟩ := hc
  exact digitChar_isDigit (decimalDigits_lt n d hd)

theorem takeWhile_stop {l : List Char} (h : headOk l = true) :
    l.takeWhile Char.isDigit = [] := by
  cases l with
  | nil => rfl
  | cons c t =>
      rw [headOk] at h
      rw [List.takeWhile_cons]
      simp only [Bool.not_eq_true'] at h
      rw [h]
      simp

theorem dropWhile_stop {l : List Char} (h : headOk l = true) :
    l.dropWhile Char.isDigit = l := by
  cases l with
  | nil => rfl
  | cons c t =>
      rw [headOk] at h
      rw [List.dropWhile_cons]
      simp only [Bool.not_eq_true'] at h
      rw [h]
      simp

theorem valDigits_natChars (n : Nat) :
    valDigits ((natChars n).map digitVal) = n := by
  unfold natChars
  rw [List.map_map]
  have hmap : (decimalDigits n).map (digitVal ∘ Nat.digitChar) = decimalDigits n :=
    map_self _ _ (fun d hd => digitVal_digitChar d (decimalDigits_lt n d hd))
  rw [hmap, valDigits_decimalDigits]

theorem parseNat_natChars (n : Nat) (rest : List Char)
    (hrest : headOk rest = true) :
    parseNat (natChars n ++ rest) = some (n, rest) := by
  have htake : (natChars n ++ rest).takeWhile Char.isDigit = natChars n := by
    rw [List.takeWhile_append_of_pos (natChars_digits n), takeWhile_stop hrest,
      List.append_nil]
  have hdrop : (natChars n ++ rest).dropWhile Char.isDigit = rest := by
    rw [dropWhile_append_of_pos (natChars_digits n), dropWhile_stop hrest]
  obtain ⟨c, r, hc, hdig⟩ := natChars_head n
  rw [parseNat, htake, hc]
  show some (valDigits ((c :: r).map digitVal), _) = _
  rw [← hc, valDigits_natChars, hdrop]

theorem digit_not_special {c : Char} (h : c.isDigit = true) :
    c ≠ '"' ∧ c ≠ 't' ∧ c ≠ 'f' ∧ c ≠ '[' ∧ c ≠ '\x7b' := by
  refine ⟨?_, ?_, ?_, ?_, ?_⟩ <;>
    (intro hh; rw [hh] at h; exact absurd h (by decide))

theorem parseValue_num (fuel n : Nat) (rest : List Char)
    (hrest : headOk rest = true) :
    parseValue (fuel + 1) (natChars n ++ rest) = some (.num n, rest) := by
  obtain ⟨c, r, hc, hdig⟩ := natChars_head n
  obtain ⟨n1, n2, n3, n4, n5⟩ := digit_not_special hdig
  rw [hc, List.cons_append, parseValue, if_neg n1, if_neg n2, if_neg n3,
    if_neg n4, if_neg n5, if_pos hdig, ← List.cons_append, ← hc,
    parseNat_natChars n rest hrest]
  rfl

theorem jsize_pos (v : JValue) : 1 ≤ jsize v := by
  cases v <;> rw [jsize] <;> omega

theorem jsize_mem_items {y : JValue} {xs : List JValue} (h : y ∈ xs) :
    jsize y + 1 ≤ jsizeItems xs := by
  induction xs with
  | nil => cases h
  | cons x t ih =>
      rw [jsizeItems]
      rcases List.mem_cons.mp h with rfl | h2
      · omega
      · have := ih h2
        omega

theorem jsize_mem_fields {p : String × JValue}
    {kvs : List (String × JValue)} (h : p ∈ kvs) :
    jsize p.2 + 1 ≤ jsizeFields kvs := by
  induction kvs with
  | nil => cases h
  | cons q t ih =>
      obtain ⟨k1, v1⟩ := q
      rw [jsizeFields]
      rcases List.mem_cons.mp h with rfl | h2
      · rw [show ((k1, v1) : String × JValue).2 = v1 from rfl]
        omega
      · have := ih h2
        omega

theorem headOk_nlInd (ind : Nat) (X : List Char) :
    headOk (nlInd ind ++ X) = true := rfl

theorem headOk_serItems (ind ind2 : Nat) (ys : List JValue) (X : List Char) :
    headOk (serItems ind ys ++ (nlInd ind2 ++ X)) = true := by
  cases ys with
  | nil => rw [serItems]; rfl
  | cons y t => rw [serItems]; rfl

theorem headOk_serFields (ind ind2 : Nat) (ys : List (String × JValue))
    (X : List Char) :
    headOk (serFields ind ys ++ (nlInd ind2 ++ X)) = true := by
  cases ys with
  | nil => rw [serFields]; rfl
  | cons y t =>
      obtain ⟨k1, v1⟩ := y
      rw [serFields]
      rfl


theorem parseArrTail_serItems (ind ind2 : Nat) (xs : List JValue)
    (Helem : ∀ y ∈ xs, ∀ f r, jsize y ≤ f → headOk r = true →
       parseValue f (serValue ind y ++ r) = some (y, r)) :
    ∀ (fuel : Nat) (rest : List Char), jsizeItems xs + 1 ≤ fuel →
      headOk rest = true →
      parseArrTail fuel (serItems ind xs ++ (nlInd ind2 ++ (']' :: rest))) =
        some (xs, rest) := by
  induction xs with
  | nil =>
      intro fuel rest hf hr
      obtain ⟨f, rfl⟩ : ∃ f, fuel = f + 1 := ⟨fuel - 1, by omega⟩
      rw [serItems, List.nil_append, parseArrTail, skipWs_nlInd,
        skipWs_cons_false (by decide),
        if_neg (show ¬ (']' :: rest).head? = some ',' by simp),
        if_pos (show (']' :: rest).head? = some ']' from rfl)]
      rfl
  | cons y ys ih =>
      intro fuel rest hf hr
      obtain ⟨f, rfl⟩ : ∃ f, fuel = f + 1 := ⟨fuel - 1, by omega⟩
      rw [jsizeItems] at hf
      have hy := jsize_pos y
      rw [serItems, List.cons_append, parseArrTail,
        skipWs_cons_false (by decide),
        if_pos (show (',' :: (nlInd ind ++ serValue ind y ++ serItems ind ys ++
          (nlInd ind2 ++ ']' :: rest))).head? = some ',' from rfl),
        List.tail_cons,
        List.append_assoc, List.append_assoc, skipWs_nlInd, skipWs_serValue,
        Helem y (by simp) f _ (by omega)
          (headOk_serItems ind ind2 ys (']' :: rest))]
      simp only [Option.some_bind]
      rw [ih (fun z hz => Helem z (by simp [hz])) f rest (by omega) hr]
      rfl


theorem parseField_ser (ind : Nat) (k : String) (v : JValue)
    (Hv : ∀ f r, jsize v ≤ f → headOk r = true →
      parseValue f (serValue ind v ++ r) = some (v, r)) :
    ∀ (fuel : Nat) (rest : List Char), jsize v + 1 ≤ fuel → headOk rest = true →
      parseField fuel (escapeString k ++ (':' :: ' ' :: (serValue ind v ++ rest))) =
        some ((k, v), rest) := by
  intro fuel rest hf hr
  obtain ⟨f, rfl⟩ : ∃ f, fuel = f + 1 := ⟨fuel - 1, by omega⟩
  show parseField (f + 1) ('"' :: (((k.data.map escapeChar).flatten ++ ['"']) ++
    (':' :: ' ' :: (serValue ind v ++ rest)))) = _
  rw [parseField, if_pos (show (('"' : Char) :: (((k.data.map escapeChar).flatten ++
      ['"']) ++ (':' :: ' ' :: (serValue ind v ++ rest)))).head? = some '"' from rfl),
    List.tail_cons, List.append_assoc, List.singleton_append,
    psb_escString k.data _ _ (by
      have := flatten_escape_length k.data
      rw [List.length_append, List.length_cons]
      omega)]
  simp only [Option.some_bind]
  rw [skipWs_cons_false (by decide),
    if_pos (show ((':' : Char) :: (' ' :: (serValue ind v ++ rest))).head? =
      some ':' from rfl),
    List.tail_cons, skipWs_space, skipWs_serValue, Hv f rest (by omega) hr]
  rfl

theorem parseObjTail_serFields (ind ind2 : Nat) (kvs : List (String × JValue))
    (Helem : ∀ p ∈ kvs, ∀ f r, jsize p.2 ≤ f → headOk r = true →
       parseValue f (serValue ind p.2 ++ r) = some (p.2, r)) :
    ∀ (fuel : Nat) (rest : List Char), jsizeFields kvs + 1 ≤ fuel →
      headOk rest = true →
      parseObjTail fuel (serFields ind kvs ++ (nlInd ind2 ++ ('\x7d' :: rest))) =
        some (kvs, rest) := by
  induction kvs with
  | nil =>
      intro fuel rest hf hr
      obtain ⟨f, rfl⟩ : ∃ f, fuel = f + 1 := ⟨fuel - 1, by omega⟩
      rw [serFields, List.nil_append, parseObjTail, skipWs_nlInd,
        skipWs_cons_false (by decide),
        if_neg (show ¬ ('\x7d' :: rest).head? = some ',' by simp),
        if_pos (show ('\x7d' :: rest).head? = some '\x7d' from rfl)]
      rfl
  | cons q kvs2 ih =>
      obtain ⟨kq, vq⟩ := q
      intro fuel rest hf hr
      obtain ⟨f, rfl⟩ : ∃ f, fuel = f + 1 := ⟨fuel - 1, by omega⟩
      rw [jsizeFields] at hf
      have hv := jsize_pos vq
      rw [serFields, List.cons_append, parseObjTail,
        skipWs_cons_false (by decide),
        if_pos (show (',' :: ((nlInd ind ++ escapeString kq ++ ':' :: ' ' ::
          (serValue ind vq ++ serFields ind kvs2)) ++
          (nlInd ind2 ++ '\x7d' :: rest))).head? = some ',' from rfl),
        List.tail_cons]
      simp only [List.append_assoc, List.cons_append]
      rw [skipWs_nlInd, skipWs_escapeString,
        parseField_ser ind kq vq
          (fun f2 r hf2 hr2 => Helem (kq, vq) (by simp) f2 r hf2 hr2)
          f _ (by omega) (headOk_serFields ind ind2 kvs2 ('\x7d' :: rest))]
      simp only [Option.some_bind]
      rw [ih (fun p hp => Helem p (by simp [hp])) f rest (by omega) hr]
      rfl


theorem parse_serValue (N : Nat) :
    ∀ (v : JValue), jsize v ≤ N →
      ∀ (fuel ind : Nat) (rest : List Char), jsize v ≤ fuel →
        headOk rest = true →
        parseValue fuel (serValue ind v ++ rest) = some (v, rest) := by
  induction N with
  | zero =>
      intro v hv
      have := jsize_pos v
      omega
  | succ N ihN =>
      intro v hv fuel ind rest hfuel hrest
      have hvpos := jsize_pos v
      obtain ⟨f, rfl⟩ : ∃ f, fuel = f + 1 := ⟨fuel - 1, by omega⟩
      cases v with
      | str s =>
          rw [serValue]
          exact parseValue_str f s rest
      | num n =>
          rw [serValue]
          exact parseValue_num f n rest hrest
      | bool b =>
          cases b
          · rw [serValue]
            rfl
          · rw [serValue]
            rfl
      | arr xs =>
          cases xs with
          | nil =>
              rw [serValue]
              rfl
          | cons x xs =>
              rw [jsize, jsizeItems] at hv hfuel
              have hx := jsize_pos x
              rw [serValue, List.cons_append, parseValue,
                if_neg (by decide), if_neg (by decide), if_neg (by decide),
                if_pos rfl]
              simp only [List.append_assoc, List.cons_append,
                List.singleton_append, List.nil_append]
              rw [skipWs_nlInd, skipWs_serValue]
              have hne : ¬ ((serValue (ind + 2) x ++ (serItems (ind + 2) xs ++
                  (nlInd ind ++ (']' :: rest)))).head? = some ']') := by
                obtain ⟨hc, hr2, heq, hstart⟩ := serValue_head (ind + 2) x
                rw [heq, List.cons_append]
                simp [(startOk_props hstart).2.1]
              rw [if_neg hne,
                ihN x (by omega) f (ind + 2) _ (by omega)
                  (headOk_serItems (ind + 2) ind xs (']' :: rest))]
              simp only [Option.some_bind]
              rw [parseArrTail_serItems (ind + 2) ind xs
                (fun y hy f2 r hf2 hr2 =>
                  ihN y (by have := jsize_mem_items hy; omega) f2 (ind + 2) r
                    hf2 hr2)
                f rest (by omega) hrest]
              rfl
      | obj kvs =>
          cases kvs with
          | nil =>
              rw [serValue]
              rfl
          | cons q kvs =>
              obtain ⟨kq, vq⟩ := q
              rw [jsize, jsizeFields] at hv hfuel
              have hx := jsize_pos vq
              rw [serValue, List.cons_append, parseValue,
                if_neg (by decide), if_neg (by decide), if_neg (by decide),
                if_neg (by decide), if_pos rfl]
              simp only [List.append_assoc, List.cons_append,
                List.singleton_append, List.nil_append]
              have hne2 : ¬ (escapeString kq ++ ':' :: ' ' ::
                  (serValue (ind + 2) vq ++ (serFields (ind + 2) kvs ++
                    (nlInd ind ++ '\x7d' :: rest)))).head? = some '\x7d' := by
                rw [headOf_escapeString]
                decide
              rw [skipWs_nlInd, skipWs_escapeString, if_neg hne2,
                parseField_ser (ind + 2) kq vq
                  (fun f2 r hf2 hr2 =>
                    ihN vq (by omega) f2 (ind + 2) r hf2 hr2)
                  f _ (by omega)
                  (headOk_serFields (ind + 2) ind kvs ('\x7d' :: rest))]
              simp only [Option.some_bind]
              rw [parseObjTail_serFields (ind + 2) ind kvs
                (fun p hp f2 r hf2 hr2 =>
                  ihN p.2 (by have := jsize_mem_fields hp; omega) f2 (ind + 2)
                    r hf2 hr2)
                f rest (by omega) hrest]
              rfl



theorem mapM_loop_round {α β : Type} (f : β → Option α) (g : α → β)
    (h : ∀ x, f (g x) = some x) :
    ∀ (l : List α) (acc : List α),
      List.mapM.loop f (l.map g) acc = some (acc.reverse ++ l) := by
  intro l
  induction l with
  | nil =>
      intro acc
      rw [List.map_nil, List.mapM.loop]
      simp
  | cons x t ih =>
      intro acc
      rw [List.map_cons, List.mapM.loop, h x]
      show List.mapM.loop f (t.map g) (x :: acc) = _
      rw [ih (x :: acc)]
      simp

theorem mapM_round {α β : Type} (f : β → Option α) (g : α → β)
    (h : ∀ x, f (g x) = some x) (l : List α) :
    (l.map g).mapM f = some l := by
  rw [List.mapM, mapM_loop_round f g h l []]
  rfl

theorem fromStrList_round (l : List String) :
    fromStrList (.arr (l.map .str)) = some l := by
  show (l.map JValue.str).mapM jStr = some l
  exact mapM_round jStr JValue.str (fun x => rfl) l

theorem fromPairs_round (l : List (String × String)) :
    fromPairs (pairsJson l) = some l := by
  show (l.map (fun p => (p.1, JValue.str p.2))).mapM
    (fun p => (jStr p.2).map (fun s => (p.1, s))) = some l
  exact mapM_round
    (fun (p : String × JValue) => Option.map (fun s => (p.1, s)) (jStr p.2))
    (fun (p : String × String) => (p.1, JValue.str p.2)) (fun x => rfl) l

theorem fromStory_round (st : Story) : fromStory (storyJson st) = some st := rfl

theorem fromSpec_round (s : Spec) : fromSpec (specJson s) = some s := by
  simp [fromSpec, specJson, getF, jObj, jStr, fromStrList_round, List.lookup]

theorem fromCriteriaBlock_round (b : CriteriaBlock) :
    fromCriteriaBlock (criteriaBlockJson b) = some b := by
  simp [fromCriteriaBlock, criteriaBlockJson, getF, jObj, jStr,
    fromStrList_round, List.lookup]

theorem fromTechRequirement_round (r : TechRequirement) :
    fromTechRequirement (techRequirementJson r) = some r := by
  simp [fromTechRequirement, techRequirementJson, getF, jObj, jStr,
    fromStrList_round, List.lookup]


theorem mapM_loop_round_nil {α β : Type} (f : β → Option α) (g : α → β)
    (h : ∀ x, f (g x) = some x) (l : List α) :
    List.mapM.loop f (l.map g) [] = some l := by
  rw [mapM_loop_round f g h l []]
  rfl

theorem fromEndpoint_round (e : Endpoint) :
    fromEndpoint (endpointJson e) = some e := by
  rcases e with ⟨path, method, description, auth, request, response⟩
  cases auth <;> cases request <;>
    simp [fromEndpoint, endpointJson, getF, jObj, jStr, jBool,
      fromPairs_round, List.lookup]

theorem fromApiSpec_round (a : ApiSpec) :
    fromApiSpec (apiSpecJson a) = some a := by
  have h := mapM_loop_round_nil fromEndpoint endpointJson fromEndpoint_round
    a.endpoints
  simp [fromApiSpec, apiSpecJson, getF, jObj, jStr, jArr, List.lookup, h]

theorem fromColumn_round (c : Column) : fromColumn (columnJson c) = some c := by
  rcases c with ⟨n, t, pk, u, fk⟩
  cases pk <;> cases u <;> cases fk <;> rfl

theorem fromTable_round (t : Table) : fromTable (tableJson t) = some t := by
  have h := mapM_loop_round_nil fromColumn columnJson fromColumn_round
    t.columns
  simp [fromTable, tableJson, getF, jObj, jStr, jArr, List.lookup, h]

theorem fromDbSchema_round (s : DbSchema) :
    fromDbSchema (dbSchemaJson s) = some s := by
  have h := mapM_loop_round_nil fromTable tableJson fromTable_round s.tables
  simp [fromDbSchema, dbSchemaJson, getF, jObj, jStr, jArr, List.lookup, h]

set_option maxHeartbeats 1000000 in
theorem fromJson_toJson (fd : FeatureData) : fromJson (toJson fd) = some fd := by
  have h1 := fromSpec_round fd.specification
  have h2 := mapM_loop_round_nil fromStory storyJson fromStory_round
    fd.user_stories
  have h3 := mapM_loop_round_nil
    (fun (p : String × JValue) =>
      Option.map (fun b => (p.1, b)) (fromCriteriaBlock p.2))
    (fun (p : String × CriteriaBlock) => (p.1, criteriaBlockJson p.2))
    (fun x => by
      show Option.map (fun b => (x.1, b))
        (fromCriteriaBlock (criteriaBlockJson x.2)) = some x
      rw [fromCriteriaBlock_round]
      rfl)
    fd.acceptance_criteria
  have h4 := mapM_loop_round_nil fromTechRequirement techRequirementJson
    fromTechRequirement_round fd.technical_requirements
  have h5 := fromApiSpec_round fd.api_specification
  have h6 := fromDbSchema_round fd.database_schema
  simp [fromJson, toJson, getF, jObj, jStr, jArr, List.lookup,
    h1, h2, h3, h4, h5, h6]

theorem keysUniqueItems_strs (l : List String) :
    keysUniqueItems (l.map JValue.str) = true := by
  induction l with
  | nil => rfl
  | cons x t ih => simp [keysUniqueItems, keysUnique, ih]

set_option maxHeartbeats 1000000 in
/-- C9: round-trip fidelity of the written `feature_spec.json`. For every
feature record produced by `generate_feature` (any idea, optional tech
stack, category draw, timestamp and identifier): reconstructing the record
from its JSON value recovers it exactly, parsing the serialized text
(`json.dump` with `indent=2`) recovers the exact JSON value with nothing
left over (so lists keep their order), and every object in the value has
pairwise-distinct keys. -/
theorem c9_round_trip (project_idea : String) (tech_stack : Option String)
    (category created_at feature_id : String) :
    fromJson (toJson (generate_feature project_idea tech_stack category
        created_at feature_id)) =
      some (generate_feature project_idea tech_stack category created_at
        feature_id) ∧
    parseValue
        (jsize (toJson (generate_feature project_idea tech_stack category
          created_at feature_id)))
        ((serializeJson (toJson (generate_feature project_idea tech_stack
          category created_at feature_id))).data) =
      some (toJson (generate_feature project_idea tech_stack category
        created_at feature_id), []) ∧
    keysUnique (toJson (generate_feature project_idea tech_stack category
      created_at feature_id)) = true := by
  refine ⟨fromJson_toJson _, ?_, ?_⟩
  · have hp := parse_serValue
      (jsize (toJson (generate_feature project_idea tech_stack category
        created_at feature_id)))
      (toJson (generate_feature project_idea tech_stack category created_at
        feature_id)) le_rfl
      (jsize (toJson (generate_feature project_idea tech_stack category
        created_at feature_id))) 0 [] le_rfl rfl
    rwa [List.append_nil] at hp
  · simp [toJson, generate_feature, create_feature_spec,
      generate_user_stories, generate_acceptance_criteria,
      generate_technical_requirements, generate_api_spec,
      generate_database_schema, dictSet, specJson, storyJson,
      criteriaBlockJson, techRequirementJson, endpointJson, apiSpecJson,
      columnJson, tableJson, dbSchemaJson, pairsJson, keysUnique,
      keysUniqueFields, keysUniqueItems, keysUniqueItems_strs, nodupKeys]

end PMAgent
